import Mathlib

/-!
Verification of the storage-control warehouse core (src/warehouse.rs,
src/product.rs) against its specification.

Modelling conventions, shared by all definitions below:
* Rust structs become Lean structures with the same fields in the same order;
  `usize` becomes `Nat` (all arithmetic in the verified paths stays far from
  2^64, so wrap-around is modelled only where the source can actually
  underflow, via truncated `Nat` subtraction exactly where Rust writes `-=`).
* `chrono::NaiveDate` is modelled as a `Nat` in `yyyymmdd` form; chronological
  order coincides with numeric order, which is all the source uses
  (`cmp` on dates).  The `timestamp: DateTime<Utc>` field of `ProductItem`
  (wall-clock creation time, never read by any warehouse operation) is omitted.
* Fallible Rust functions returning `Result<_, Box<dyn Error>>` become
  functions into `Res`, whose `err` constructor carries the error kind
  (the source wraps each `ErrorMessage` together with the offending
  coordinates into a boxed string; the coordinate payload and the
  coordinate-only message parameters are dropped, the kind is kept).
  `Res.crash` models a Rust panic: an out-of-bounds index, `.unwrap()` on
  `None`, or a loop the source never exits.
* `HashMap<(usize,usize), bool>` (the vacancy map) is modelled as an
  association list looked up front-to-back; `insert` prepends, which has the
  same lookup semantics as overwriting.
* `Vec` iteration/`position`/`rfind` become the corresponding `List`
  operations; in-place mutation through `iter_mut().find(...)` becomes
  `updateFirst`, which rewrites the first matching element.
* `while` loops become structural recursion on the quantity they decrement,
  or recursion on an explicit fuel argument chosen at the call site to be at
  least the number of iterations the Rust loop can perform before returning
  or crashing (running out of fuel yields `Res.crash` and is unreachable for
  the chosen fuel in every evaluation below).
-/

set_option maxRecDepth 10000

namespace SC

/-- Result of a fallible Rust operation: success, a typed error, or a panic
(index out of bounds or unwrap on None). -/
inductive ErrMsg where
  | InsufficientSpace
  | InsufficientStock
  | NoContiguousSpace
  | NoProductFound
  | NotEnoughZones
  | ZoneOccupied
  | ZoneEmpty
  | ZoneNotFound
  | LevelNotFound
  | ShelfNotFound
  | CannotRemovePart
  | RowNotFound
  | NotProductStart
  | ProductNotListed
  | EndOfRows
  | EndOfWarehouse
  | NotEnoughQuantity
  | ProductNotFound
  | NameExists
  | InvalidInput
  | LevelTooHigh
  | FragileObjectWithoutExpiration
deriving DecidableEq, Repr

/-- Outcome of a Rust call: `ok`, a typed error (`Err(...)`), or `crash`
for a panic. -/
inductive Res (α : Type) where
  | ok : α → Res α
  | err : ErrMsg → Res α
  | crash : Res α
deriving DecidableEq, Repr

/-- Map over the success value of a `Res` (used only to state observations
about results, never inside a translated definition). -/
def Res.map (f : α → β) : Res α → Res β
  | .ok a => .ok (f a)
  | .err e => .err e
  | .crash => .crash

/-- Rewrite the first element satisfying `p` (models mutation through
`iter_mut().find(...)` / `zone_mut` style lookups; no-op when absent). -/
def updateFirst (p : α → Bool) (f : α → α) : List α → List α
  | [] => []
  | x :: xs => if p x then f x :: xs else x :: updateFirst p f xs

/-- Rust indexing `l[n - 1]` on a `usize` coordinate `n`: out of bounds
(including `n = 0`, where `n - 1` underflows) gives `none`, which every
caller below turns into `Res.crash`. -/
def idx1 (l : List α) (n : Nat) : Option α :=
  if n = 0 then none else l.get? (n - 1)

/-- Rust write-back `l[n - 1] = a` after a successful `idx1` read. -/
def setIdx1 (l : List α) (n : Nat) (a : α) : List α :=
  if n = 0 then l else l.set (n - 1) a

/-- Calendar date in `yyyymmdd` form. -/
abbrev Date := Nat

/-- Sentinel used by `sort_by_expiry_date` for items without a date:
`NaiveDate::from_ymd_opt(9999, 12, 31)`. -/
def lastDate : Date := 99991231

inductive Quality where
  | Normal
  | Fragile (max_level : Nat)
  | Oversized (zones_required : Nat)
  | OversizedAndFragile (zones_required max_level : Nat)
deriving DecidableEq, Repr

structure Product where
  id : Nat
  name : String
  price : Nat
  quantity : Nat
  quality : Quality
deriving DecidableEq, Repr

/-- Placed unit (src/product.rs `ProductItem`); the never-read wall-clock
`timestamp` field is omitted. -/
structure ProductItem where
  id : Nat
  placement : Nat × Nat × Nat × Nat
  zones_required : Nat
  expiry_date : Option Date
deriving DecidableEq, Repr

structure ProductList where
  products : List Product
deriving DecidableEq, Repr

def ProductList.product (list : ProductList) (id : Nat) : Option Product :=
  list.products.find? (fun p => p.id == id)

/-- `product_mut(id)` followed by `add_quantity(n)`. -/
def ProductList.add_quantity (list : ProductList) (id : Nat) (n : Nat) : ProductList :=
  { list with
    products := updateFirst (fun p => p.id == id)
      (fun p => { p with quantity := p.quantity + n }) list.products }

def Product.max_level (p : Product) : Option Nat :=
  match p.quality with
  | .Fragile maxlevel => some maxlevel
  | .OversizedAndFragile _ maxlevel => some maxlevel
  | _ => none

/-- `ProductItem::new` (src/product.rs lines 221-292).  Mutates the product
list (quantity increment), so the updated list is returned alongside the item. -/
def ProductItem.new (id : Nat) (list : ProductList) (placement : Nat × Nat × Nat × Nat)
    (expiry_date : Option Date) : Res (ProductItem × ProductList) :=
  match list.product id with
  | some product =>
    match product.quality with
    | .Fragile maxlevel =>
      if expiry_date.isNone then .err .FragileObjectWithoutExpiration
      else if placement.2.2.1 > maxlevel then .err .LevelTooHigh
      else .ok ({ id := id, zones_required := 1, placement := placement,
                  expiry_date := expiry_date }, list.add_quantity id 1)
    | .Oversized zones_required =>
      .ok ({ id := id, placement := placement, zones_required := zones_required,
             expiry_date := expiry_date }, list.add_quantity id 1)
    | .OversizedAndFragile zones_required maxlevel =>
      if expiry_date.isNone then .err .FragileObjectWithoutExpiration
      else if placement.2.2.1 > maxlevel then .err .LevelTooHigh
      else .ok ({ id := id, placement := placement, zones_required := zones_required,
                  expiry_date := expiry_date }, list.add_quantity id 1)
    | .Normal =>
      .ok ({ id := id, placement := placement, zones_required := 1,
             expiry_date := expiry_date }, list.add_quantity id 1)
  | none => .err .ProductNotFound

inductive ItemPart where
  | WholeProduct : ProductItem → ItemPart
  | ProductStart : ProductItem → Nat → ItemPart
  | ProductPart : Nat → Nat → ItemPart
  | ProductEnd : Nat → ItemPart
deriving DecidableEq, Repr

inductive PlacementStrategy where
  | Contiguous
  | RoundRobin
  | ClosestToStart
deriving DecidableEq, Repr

structure Zone where
  number : Nat
  item : Option ItemPart
deriving DecidableEq, Repr

structure Level where
  number : Nat
  available_space : Nat
  zones : List Zone
deriving DecidableEq, Repr

structure Shelf where
  number : Nat
  available_space : Nat
  levels : List Level
deriving DecidableEq, Repr

structure Row where
  number : Nat
  available_space : Nat
  shelves : List Shelf
deriving DecidableEq, Repr

structure Warehouse where
  available_space : Nat
  rows : List Row
  strategy : PlacementStrategy
deriving DecidableEq, Repr

def Zone.new (number : Nat) (item : Option ItemPart) : Zone :=
  { number := number, item := item }

def Zone.is_empty (z : Zone) : Bool :=
  z.item.isNone

/-- `Zone::add`: fails with `ZoneOccupied` when an occupant is present. -/
def Zone.add (z : Zone) (item : ProductItem) : Res Zone :=
  if z.item.isSome then .err .ZoneOccupied
  else .ok { z with item := some (.WholeProduct item) }

/-- `Zone::remove`: only a `WholeProduct` occupant may be removed directly. -/
def Zone.remove (z : Zone) : Res Zone :=
  match z.item with
  | none => .err .ZoneEmpty
  | some (.WholeProduct _) => .ok { z with item := none }
  | some _ => .err .CannotRemovePart

def Level.new (number : Nat) : Level :=
  { number := number, zones := [], available_space := 0 }

def Level.add_zone (lv : Level) (zone : Zone) : Level :=
  { lv with zones := lv.zones ++ [zone], available_space := lv.available_space + 1 }

/-- `Level::zone`: first zone whose `number` field matches. -/
def Level.zone (lv : Level) (zone_number : Nat) : Option Zone :=
  lv.zones.find? (fun z => z.number == zone_number)

/-- Assignment through `zone_mut(i)`: writes `z.item = it` on the zone found
by `if let Some(z) = self.zone_mut(i)`, a no-op when the number does not
resolve. -/
def Level.setZone (lv : Level) (zone_number : Nat) (it : Option ItemPart) : Level :=
  { lv with
    zones := updateFirst (fun z => z.number == zone_number)
      (fun z => { z with item := it }) lv.zones }

/-- `Level::flat_map`: one character per zone in storage order. -/
def Level.flat_map (lv : Level) : List Char :=
  lv.zones.map (fun z => if z.is_empty then '0' else '1')

/-- `Level::flat_map_position_to_zone`: returns the raw 0-based position
whenever it is in bounds. -/
def Level.flat_map_position_to_zone (lv : Level) (position : Nat) : Option Nat :=
  if position < lv.zones.length then some position else none

def Level.is_full (lv : Level) : Bool :=
  lv.available_space == 0

def Level.is_empty (lv : Level) : Bool :=
  lv.flat_map.all (fun c => c == '0')

/-- `for i in 1..=zone_count` adding fresh numbered zones. -/
def Level.initialize_zones (lv : Level) (zone_count : Nat) : Level :=
  (List.range zone_count).foldl (fun l i => l.add_zone (Zone.new (i + 1) none)) lv

/-- `Level::add_item`: resolve the zone by number, delegate to `Zone::add`,
and on success decrement the vacancy counter. -/
def Level.add_item (lv : Level) (zone_number : Nat) (item : ProductItem) : Res Level :=
  match lv.zone zone_number with
  | some z =>
    match z.add item with
    | .ok z2 =>
      .ok { lv with
            zones := updateFirst (fun zn => zn.number == zone_number) (fun _ => z2) lv.zones,
            available_space := lv.available_space - 1 }
    | .err e => .err e
    | .crash => .crash
  | none => .err .ZoneNotFound

def Level.remove_item (lv : Level) (zone_number : Nat) : Res Level :=
  match lv.zone zone_number with
  | some z =>
    match z.remove with
    | .ok z2 =>
      .ok { lv with
            zones := updateFirst (fun zn => zn.number == zone_number) (fun _ => z2) lv.zones,
            available_space := lv.available_space + 1 }
    | .err e => .err e
    | .crash => .crash
  | none => .err .ZoneNotFound

/-- The loop body of `check_if_fits`: `for i in start..` for `count`
iterations, reading `map.chars().nth(i).unwrap()` — the `unwrap` of an
out-of-range `nth` is a panic. -/
def charsCheck (map : List Char) (start : Nat) : Nat → Res Unit
  | 0 => .ok ()
  | count + 1 =>
    match map.get? start with
    | none => .crash
    | some ch =>
      if ch == '1' then .err .ZoneOccupied
      else charsCheck map (start + 1) count

/-- `Level::check_if_fits` (src/warehouse.rs lines 450-474), kept verbatim:
the scan runs over flat-map indices `zone_number..=last_zone`, although the
flat-map index of zone `z` is `z - 1`. -/
def Level.check_if_fits (lv : Level) (zone_number zones_required : Nat) : Res Unit :=
  let map := lv.flat_map
  let last_zone := zone_number + zones_required - 1
  if zone_number > map.length then .err .ZoneNotFound
  else if last_zone > map.length then .err .InsufficientSpace
  else charsCheck map zone_number (last_zone + 1 - zone_number)

/-- `for i in zone_number + 1..last_zone` writing `ProductPart` markers. -/
def Level.setPartsGo (lv : Level) (start last i : Nat) : Nat → Level
  | 0 => lv
  | count + 1 =>
    Level.setPartsGo (lv.setZone i (some (.ProductPart start last))) start last (i + 1) count

/-- `Level::add_oversized_item` (src/warehouse.rs lines 476-502). -/
def Level.add_oversized_item (lv : Level) (zone_number : Nat) (item : ProductItem) : Res Level :=
  let zones_required := item.zones_required
  match lv.check_if_fits zone_number zones_required with
  | .err e => .err e
  | .crash => .crash
  | .ok _ =>
    match lv.zone zone_number with
    | some _ =>
      let last_zone := zone_number + item.zones_required - 1
      let lv1 := lv.setZone zone_number (some (.ProductStart item last_zone))
      let lv2 := Level.setPartsGo lv1 zone_number last_zone (zone_number + 1)
        (last_zone - (zone_number + 1))
      let lv3 := lv2.setZone last_zone (some (.ProductEnd zone_number))
      .ok { lv3 with available_space := lv3.available_space - zones_required }
    | none => .err .ZoneNotFound

def Level.get_oversized_range (lv : Level) (zone_number : Nat) : Option (Nat × Nat) :=
  match lv.zone zone_number with
  | some z =>
    match z.item with
    | some (.ProductStart _ last_zone) => some (zone_number, last_zone)
    | _ => none
  | none => none

/-- `for i in start..=end` clearing the zones of a span. -/
def Level.clearRangeGo (lv : Level) (i : Nat) : Nat → Level
  | 0 => lv
  | count + 1 => Level.clearRangeGo (lv.setZone i none) (i + 1) count

def Level.remove_oversized_item (lv : Level) (zone_number : Nat) : Res Level :=
  match lv.get_oversized_range zone_number with
  | some (start, stop) =>
    let lv2 := Level.clearRangeGo lv start (stop + 1 - start)
    .ok { lv2 with available_space := lv2.available_space + (stop - start + 1) }
  | none => .err .NoProductFound

/-- `Level::find_vacant_zone`: `position` of the first empty zone. -/
def Level.find_vacant_zone (lv : Level) : Option Nat :=
  lv.zones.findIdx? (fun z => z.is_empty)

/-- `Level::item`: resolve the authoritative payload, following the start
index stored in `ProductPart`/`ProductEnd`. -/
def Level.item (lv : Level) (zone_number : Nat) : Option ProductItem :=
  match lv.zone zone_number with
  | some z =>
    match z.item with
    | some (.WholeProduct item) => some item
    | some (.ProductStart item _) => some item
    | some (.ProductPart start _) | some (.ProductEnd start) =>
      match lv.zone start with
      | some start_zone =>
        match start_zone.item with
        | some (.ProductStart item _) => some item
        | _ => none
      | none => none
    | none => none
  | none => none

def Level.check_capacity (lv : Level) : Nat :=
  lv.zones.length

/-- `Level::items`: payload-carrying occupants in storage order. -/
def Level.items (lv : Level) : List ProductItem :=
  lv.zones.filterMap (fun z =>
    match z.item with
    | some (.WholeProduct item) => some item
    | some (.ProductStart item _) => some item
    | _ => none)

def Shelf.new (number : Nat) : Shelf :=
  { number := number, available_space := 0, levels := [] }

def Shelf.add_level (sh : Shelf) (level : Level) : Shelf :=
  { sh with available_space := sh.available_space + level.available_space,
            levels := sh.levels ++ [level] }

def Shelf.level (sh : Shelf) (level_number : Nat) : Option Level :=
  sh.levels.find? (fun lvl => lvl.number == level_number)

def Shelf.flat_map (sh : Shelf) : List Char :=
  (sh.levels.map Level.flat_map).flatten

def Shelf.check_capacity (sh : Shelf) : Nat :=
  (sh.levels.map Level.check_capacity).sum

/-- The cumulative-capacity walk of `Shelf::flat_map_position_to_zone`,
carrying the running `cumulative_capacity` and the 0-based `level_index`
of the `enumerate` loop. -/
def Shelf.decodeGo : List Level → Nat → Nat → Nat → Option (Nat × Nat)
  | [], _, _, _ => none
  | lv :: rest, position, cumulative, level_index =>
    if position < cumulative + lv.check_capacity then
      (lv.flat_map_position_to_zone (position - cumulative)).map
        (fun zone_index => (level_index + 1, zone_index))
    else
      Shelf.decodeGo rest position (cumulative + lv.check_capacity) (level_index + 1)

def Shelf.flat_map_position_to_zone (sh : Shelf) (position : Nat) : Option (Nat × Nat) :=
  Shelf.decodeGo sh.levels position 0 0

/-- `Shelf::find_vacant_zone`: first level (1-based index) holding an empty
zone, with the zone reported 1-based (`zone_index + 1`). -/
def Shelf.findVacantGo : List Level → Nat → Option (Nat × Nat)
  | [], _ => none
  | lv :: rest, level_index =>
    match lv.find_vacant_zone with
    | some zone_index => some (level_index + 1, zone_index + 1)
    | none => Shelf.findVacantGo rest (level_index + 1)

def Shelf.find_vacant_zone (sh : Shelf) : Option (Nat × Nat) :=
  Shelf.findVacantGo sh.levels 0

def Shelf.is_full (sh : Shelf) : Bool :=
  sh.available_space == 0

def Shelf.initialize_columns (sh : Shelf) (level_count zone_per_level : Nat) : Shelf :=
  (List.range level_count).foldl
    (fun s i => s.add_level ((Level.new (i + 1)).initialize_zones zone_per_level)) sh

def Shelf.add_item (sh : Shelf) (level_number zone_number : Nat) (item : ProductItem) :
    Res Shelf :=
  match sh.level level_number with
  | some lv =>
    match lv.add_item zone_number item with
    | .ok lv2 =>
      .ok { sh with
            levels := updateFirst (fun l => l.number == level_number) (fun _ => lv2) sh.levels,
            available_space := sh.available_space - 1 }
    | .err e => .err e
    | .crash => .crash
  | none => .err .LevelNotFound

def Shelf.remove_item (sh : Shelf) (level_number zone_number : Nat) : Res Shelf :=
  match sh.level level_number with
  | some lv =>
    match lv.remove_item zone_number with
    | .ok lv2 =>
      .ok { sh with
            levels := updateFirst (fun l => l.number == level_number) (fun _ => lv2) sh.levels,
            available_space := sh.available_space + 1 }
    | .err e => .err e
    | .crash => .crash
  | none => .err .LevelNotFound

def Shelf.add_oversized_item (sh : Shelf) (level_number zone_number : Nat)
    (item : ProductItem) : Res Shelf :=
  let zones_required := item.zones_required
  match sh.level level_number with
  | some lv =>
    match lv.add_oversized_item zone_number item with
    | .ok lv2 =>
      .ok { sh with
            levels := updateFirst (fun l => l.number == level_number) (fun _ => lv2) sh.levels,
            available_space := sh.available_space - zones_required }
    | .err e => .err e
    | .crash => .crash
  | none => .err .LevelNotFound

def Shelf.item (sh : Shelf) (level_number zone_number : Nat) : Option ProductItem :=
  match sh.level level_number with
  | some lv => lv.item zone_number
  | none => none

/-- `Shelf::remove_oversized_item`: reads the span width from the resolved
item before delegating. -/
def Shelf.remove_oversized_item (sh : Shelf) (level_number zone_number : Nat) : Res Shelf :=
  match sh.item level_number zone_number with
  | none => .err .NoProductFound
  | some item =>
    let zones_required := item.zones_required
    match sh.level level_number with
    | some lv =>
      match lv.remove_oversized_item zone_number with
      | .ok lv2 =>
        .ok { sh with
              levels := updateFirst (fun l => l.number == level_number) (fun _ => lv2) sh.levels,
              available_space := sh.available_space + zones_required }
      | .err e => .err e
      | .crash => .crash
    | none => .err .LevelNotFound

def Shelf.items (sh : Shelf) : List ProductItem :=
  (sh.levels.map Level.items).flatten

def Row.new (number : Nat) : Row :=
  { number := number, available_space := 0, shelves := [] }

def Row.add_shelf (r : Row) (shelf : Shelf) : Row :=
  { r with available_space := r.available_space + shelf.available_space,
           shelves := r.shelves ++ [shelf] }

def Row.shelf (r : Row) (shelf_number : Nat) : Option Shelf :=
  r.shelves.find? (fun sh => sh.number == shelf_number)

def Row.zone (r : Row) (shelf_number level_number zone_number : Nat) : Option Zone :=
  match r.shelf shelf_number with
  | some sh =>
    match sh.level level_number with
    | some lv => lv.zone zone_number
    | none => none
  | none => none

def Row.flat_map (r : Row) : List Char :=
  (r.shelves.map Shelf.flat_map).flatten

def Row.check_capacity (r : Row) : Nat :=
  (r.shelves.map Shelf.check_capacity).sum

def Row.decodeGo : List Shelf → Nat → Nat → Nat → Option (Nat × Nat × Nat)
  | [], _, _, _ => none
  | sh :: rest, position, cumulative, shelf_index =>
    if position < cumulative + sh.check_capacity then
      (sh.flat_map_position_to_zone (position - cumulative)).map
        (fun r => (shelf_index + 1, r.1, r.2))
    else
      Row.decodeGo rest position (cumulative + sh.check_capacity) (shelf_index + 1)

def Row.flat_map_position_to_zone (r : Row) (position : Nat) : Option (Nat × Nat × Nat) :=
  Row.decodeGo r.shelves position 0 0

def Row.is_full (r : Row) : Bool :=
  r.available_space == 0

def Row.initialize_shelves (r : Row) (shelf_count level_per_shelf zone_per_level : Nat) : Row :=
  (List.range shelf_count).foldl
    (fun row i => row.add_shelf ((Shelf.new (i + 1)).initialize_columns level_per_shelf
      zone_per_level)) r

def Row.add_item (r : Row) (shelf_number level_number zone_number : Nat)
    (item : ProductItem) : Res Row :=
  match r.shelf shelf_number with
  | some sh =>
    match sh.add_item level_number zone_number item with
    | .ok sh2 =>
      .ok { r with
            shelves := updateFirst (fun s => s.number == shelf_number) (fun _ => sh2) r.shelves,
            available_space := r.available_space - 1 }
    | .err e => .err e
    | .crash => .crash
  | none => .err .ShelfNotFound

def Row.add_oversized_item (r : Row) (shelf_number level_number zone_number : Nat)
    (item : ProductItem) : Res Row :=
  let zones_required := item.zones_required
  match r.shelf shelf_number with
  | some sh =>
    match sh.add_oversized_item level_number zone_number item with
    | .ok sh2 =>
      .ok { r with
            shelves := updateFirst (fun s => s.number == shelf_number) (fun _ => sh2) r.shelves,
            available_space := r.available_space - zones_required }
    | .err e => .err e
    | .crash => .crash
  | none => .err .ShelfNotFound

def Row.remove_item (r : Row) (shelf_number level_number zone_number : Nat) : Res Row :=
  match r.shelf shelf_number with
  | some sh =>
    match sh.remove_item level_number zone_number with
    | .ok sh2 =>
      .ok { r with
            shelves := updateFirst (fun s => s.number == shelf_number) (fun _ => sh2) r.shelves,
            available_space := r.available_space + 1 }
    | .err e => .err e
    | .crash => .crash
  | none => .err .ShelfNotFound

def Row.item (r : Row) (shelf_number level_number zone_number : Nat) : Option ProductItem :=
  match r.shelf shelf_number with
  | some sh => sh.item level_number zone_number
  | none => none

def Row.remove_oversized_item (r : Row) (shelf_number level_number zone_number : Nat) :
    Res Row :=
  match r.item shelf_number level_number zone_number with
  | none => .err .NoProductFound
  | some item =>
    let zones_required := item.zones_required
    match r.shelf shelf_number with
    | some sh =>
      match sh.remove_oversized_item level_number zone_number with
      | .ok sh2 =>
        .ok { r with
              shelves := updateFirst (fun s => s.number == shelf_number) (fun _ => sh2)
                r.shelves,
              available_space := r.available_space + zones_required }
      | .err e => .err e
      | .crash => .crash
    | none => .err .ShelfNotFound

def Row.items (r : Row) : List ProductItem :=
  (r.shelves.map Shelf.items).flatten

/-- Inner placement loop of `Row::add_qty` (src/warehouse.rs lines 1292-1317):
place one item per iteration at the running coordinate, then advance
zone → level (capped by `max_level` when fragile) → shelf, returning early
with the remaining quantity when the shelf index runs past the row. -/
def Row.add_qty_go (id : Nat) (expiry_date : Option Date) (max_level : Option Nat)
    (row_number : Nat) :
    Row → ProductList → Nat → Nat → Nat → Nat → Res (Row × ProductList × Nat)
  | row, list, _, _, _, 0 => .ok (row, list, 0)
  | row, list, shelf, level, zone, qty + 1 =>
    match ProductItem.new id list (row_number, shelf, level, zone) expiry_date with
    | .err e => .err e
    | .crash => .crash
    | .ok (item, list2) =>
      match row.add_item shelf level zone item with
      | .err e => .err e
      | .crash => .crash
      | .ok row2 =>
        match idx1 row2.shelves shelf with
        | none => .crash
        | some sh =>
          match idx1 sh.levels level with
          | none => .crash
          | some lv =>
            if zone + 1 > lv.zones.length then
              if level + 1 > max_level.getD sh.levels.length then
                if shelf + 1 > row2.shelves.length then
                  .ok (row2, list2, qty)
                else
                  Row.add_qty_go id expiry_date max_level row_number
                    row2 list2 (shelf + 1) 1 1 qty
              else
                Row.add_qty_go id expiry_date max_level row_number
                  row2 list2 shelf (level + 1) 1 qty
            else
              Row.add_qty_go id expiry_date max_level row_number
                row2 list2 shelf level (zone + 1) qty

/-- `Row::add_qty` (src/warehouse.rs lines 1264-1319).  The `&mut qty`
argument becomes the `Nat` component of the result: the quantity still
unplaced when the row returns `Ok`. -/
def Row.add_qty (r : Row) (id : Nat) (list : ProductList) (qty : Nat)
    (expiry_date : Option Date) (start : Nat × Nat × Nat) : Res (Row × ProductList × Nat) :=
  match list.product id with
  | none => .err .ProductNotListed
  | some product =>
    let max_level := product.max_level
    let shelf := start.1
    let level := start.2.1
    let zone := start.2.2
    match max_level with
    | some ml =>
      let shelf2 := if level > ml then shelf + 1 else shelf
      let level2 := if level > ml then 1 else level
      let zone2 := if level > ml then 1 else zone
      if shelf2 > r.shelves.length then .ok (r, list, qty)
      else Row.add_qty_go id expiry_date max_level r.number r list shelf2 level2 zone2 qty
    | none => Row.add_qty_go id expiry_date max_level r.number r list shelf level zone qty

def Warehouse.new : Warehouse :=
  { available_space := 0, rows := [], strategy := .Contiguous }

def Warehouse.add_row (w : Warehouse) (row : Row) : Warehouse :=
  { w with available_space := w.available_space + row.available_space,
           rows := w.rows ++ [row] }

def Warehouse.row (w : Warehouse) (row_number : Nat) : Option Row :=
  w.rows.find? (fun r => r.number == row_number)

def Warehouse.zone (w : Warehouse) (row_number shelf_number level_number zone_number : Nat) :
    Option Zone :=
  match w.row row_number with
  | some r => r.zone shelf_number level_number zone_number
  | none => none

def Warehouse.check_capacity (w : Warehouse) : Nat :=
  (w.rows.map Row.check_capacity).sum

def Warehouse.is_full (w : Warehouse) : Bool :=
  w.available_space == 0

def Warehouse.flat_map (w : Warehouse) : List Char :=
  (w.rows.map Row.flat_map).flatten

def Warehouse.decodeGo : List Row → Nat → Nat → Nat → Option (Nat × Nat × Nat × Nat)
  | [], _, _, _ => none
  | r :: rest, position, cumulative, row_index =>
    if position < cumulative + r.check_capacity then
      (r.flat_map_position_to_zone (position - cumulative)).map
        (fun t => (row_index + 1, t.1, t.2.1, t.2.2))
    else
      Warehouse.decodeGo rest position (cumulative + r.check_capacity) (row_index + 1)

def Warehouse.flat_map_position_to_zone (w : Warehouse) (position : Nat) :
    Option (Nat × Nat × Nat × Nat) :=
  Warehouse.decodeGo w.rows position 0 0

def Warehouse.initialize_rows (w : Warehouse)
    (row_count shelves_per_row levels_per_shelf zone_per_level : Nat) : Warehouse :=
  (List.range row_count).foldl
    (fun wh i => wh.add_row ((Row.new (i + 1)).initialize_shelves shelves_per_row
      levels_per_shelf zone_per_level)) w

def Warehouse.add_item (w : Warehouse) (row_number shelf_number level_number zone_number : Nat)
    (item : ProductItem) : Res Warehouse :=
  match w.row row_number with
  | some r =>
    match r.add_item shelf_number level_number zone_number item with
    | .ok r2 =>
      .ok { w with
            rows := updateFirst (fun rr => rr.number == row_number) (fun _ => r2) w.rows,
            available_space := w.available_space - 1 }
    | .err e => .err e
    | .crash => .crash
  | none => .err .RowNotFound

def Warehouse.add_oversized_item (w : Warehouse)
    (row_number shelf_number level_number zone_number : Nat) (item : ProductItem) :
    Res Warehouse :=
  let zones_required := item.zones_required
  match w.row row_number with
  | some r =>
    match r.add_oversized_item shelf_number level_number zone_number item with
    | .ok r2 =>
      .ok { w with
            rows := updateFirst (fun rr => rr.number == row_number) (fun _ => r2) w.rows,
            available_space := w.available_space - zones_required }
    | .err e => .err e
    | .crash => .crash
  | none => .err .RowNotFound

def Warehouse.item (w : Warehouse) (row_number shelf_number level_number zone_number : Nat) :
    Option ProductItem :=
  match w.row row_number with
  | some r => r.item shelf_number level_number zone_number
  | none => none

/-- `Warehouse::remove_item` (src/warehouse.rs lines 1647-1686): resolve the
occupant to read its span width, then dispatch to the oversized or the
single-zone removal path. -/
def Warehouse.remove_item (w : Warehouse)
    (row_number shelf_number level_number zone_number : Nat) : Res Warehouse :=
  match w.item row_number shelf_number level_number zone_number with
  | none => .err .NoProductFound
  | some item =>
    let zones_required := item.zones_required
    match w.row row_number with
    | some r =>
      if zones_required > 1 then
        match r.remove_oversized_item shelf_number level_number zone_number with
        | .ok r2 =>
          .ok { w with
                rows := updateFirst (fun rr => rr.number == row_number) (fun _ => r2) w.rows,
                available_space := w.available_space + zones_required }
        | .err e => .err e
        | .crash => .crash
      else
        match r.remove_item shelf_number level_number zone_number with
        | .ok r2 =>
          .ok { w with
                rows := updateFirst (fun rr => rr.number == row_number) (fun _ => r2) w.rows,
                available_space := w.available_space + 1 }
        | .err e => .err e
        | .crash => .crash
    | none => .err .RowNotFound

def Warehouse.items (w : Warehouse) : List ProductItem :=
  (w.rows.map Row.items).flatten

def Warehouse.items_with_id (w : Warehouse) (product_id : Nat) : List ProductItem :=
  w.items.filter (fun item => item.id == product_id)

/-- Outer loop of `Warehouse::add_qty` (src/warehouse.rs lines 2001-2029).
One fuel unit per iteration; the row index grows by one each time round, so
`rows.length + 2` fuel (supplied by `Warehouse.add_qty`) can never run out
before the loop returns or hits the out-of-bounds `self.rows[row - 1]`. -/
def Warehouse.add_qty_go (id : Nat) (expiry_date : Option Date) :
    Warehouse → ProductList → Nat → Nat → Nat → Nat → Nat → Nat →
    Res (Warehouse × ProductList)
  | _, _, _, _, _, _, _, 0 => .crash
  | w, list, row, shelf, level, zone, qty, fuel + 1 =>
    if qty == 0 then .ok (w, list)
    else
      match idx1 w.rows row with
      | none => .crash
      | some r =>
        match r.add_qty id list qty expiry_date (shelf, level, zone) with
        | .err e => .err e
        | .crash => .crash
        | .ok (r2, list2, qty2) =>
          let w2 := { w with rows := setIdx1 w.rows row r2 }
          if row > w2.rows.length then .err .EndOfRows
          else Warehouse.add_qty_go id expiry_date w2 list2 (row + 1) 1 1 1 qty2 fuel

def Warehouse.add_qty (w : Warehouse) (id : Nat) (list : ProductList) (qty : Nat)
    (expiry_date : Option Date) (start : Nat × Nat × Nat × Nat) :
    Res (Warehouse × ProductList) :=
  Warehouse.add_qty_go id expiry_date w list start.1 start.2.1 start.2.2.1 start.2.2.2 qty
    (w.rows.length + 2)

/-- `while index + qty < flat_map.len()` scan of
`Warehouse::find_first_contiguous_space`; the index advances every
iteration, so `flat_map.length + 1` fuel suffices. -/
def findRunGo (flat_map : List Char) (qty : Nat) : Nat → Nat → Option Nat
  | _, 0 => none
  | index, fuel + 1 =>
    if index + qty < flat_map.length then
      if (flat_map.drop index).take qty == List.replicate qty '0' then some index
      else findRunGo flat_map qty (index + 1) fuel
    else none

/-- `Warehouse::find_first_contiguous_space` (src/warehouse.rs lines
1969-1979); note the found index is decoded shifted by one (`index + 1`). -/
def Warehouse.find_first_contiguous_space (w : Warehouse) (qty : Nat) :
    Option (Nat × Nat × Nat × Nat) :=
  let flat_map := w.flat_map
  match findRunGo flat_map qty 0 (flat_map.length + 1) with
  | some index => w.flat_map_position_to_zone (index + 1)
  | none => none

def Warehouse.place_contiguous_stock (w : Warehouse) (id : Nat) (list : ProductList)
    (qty : Nat) (expiry_date : Option Date) : Res (Warehouse × ProductList) :=
  match w.find_first_contiguous_space qty with
  | some start => w.add_qty id list qty expiry_date start
  | none => .err .InsufficientSpace

/-- `str::rfind('1')`: byte index of the last occupied position. -/
def rfindOne (flat_map : List Char) : Option Nat :=
  (flat_map.reverse.findIdx? (fun c => c == '1')).map
    (fun i => flat_map.length - 1 - i)

/-- `Warehouse::find_round_robin_continuation` (src/warehouse.rs lines
2308-2317): decode the last occupied position itself (no `+ 1`), or start
at `(1,1,1,1)` when the flat map holds no `'1'`. -/
def Warehouse.find_round_robin_continuation (w : Warehouse) (flat_map : List Char) :
    Option (Nat × Nat × Nat × Nat) :=
  match rfindOne flat_map with
  | some last_index => w.flat_map_position_to_zone last_index
  | none => some (1, 1, 1, 1)

def Warehouse.place_stock_in_round_robin (w : Warehouse) (id : Nat) (list : ProductList)
    (qty : Nat) (expiry_date : Option Date) : Res (Warehouse × ProductList) :=
  match w.find_round_robin_continuation w.flat_map with
  | some first_zone => w.add_qty id list qty expiry_date first_zone
  | none => .err .InsufficientSpace

/-- Vacancy map of `ClosestToStart`, an association list read through
`vmGet` (first match wins, so prepending models `HashMap::insert`). -/
abbrev VMap := List ((Nat × Nat) × Bool)

def vmGet (vm : VMap) (k : Nat × Nat) : Option Bool :=
  (vm.find? (fun e => e.1 == k)).map (fun e => e.2)

def vmInsert (vm : VMap) (k : Nat × Nat) (v : Bool) : VMap :=
  (k, v) :: vm

def Warehouse.shelf_vacancy_map (w : Warehouse) : VMap :=
  w.rows.foldl
    (fun vm row => row.shelves.foldl
      (fun vm2 sh => vmInsert vm2 (row.number, sh.number) (!sh.is_full)) vm) []

/-- One iteration of the inner loop of `Warehouse::diagonal_search`:
`row = i`, `shelf = diagonal - i`, a hit when the in-bounds pair is marked
vacant. -/
def diagCell (vm : VMap) (rows shelves diagonal i : Nat) : Option (Nat × Nat) :=
  let row := i
  let shelf := diagonal - i
  if row ≤ rows && shelf ≤ shelves then
    match vmGet vm (row, shelf) with
    | some true => some (row, shelf)
    | _ => none
  else none

/-- Inner loop of `Warehouse::diagonal_search`: `for i in 0..diagonal`,
returning the first hit. -/
def diagInner (vm : VMap) (rows shelves diagonal : Nat) : Option (Nat × Nat) :=
  (List.range diagonal).findSome? (diagCell vm rows shelves diagonal)

/-- `Warehouse::diagonal_search` (src/warehouse.rs lines 2146-2171):
`while diagonal < rows + shelves` starting from 1, i.e. diagonals
`1, …, rows + shelves - 1`. -/
def diagonalSearch (vm : VMap) (rows shelves : Nat) : Option (Nat × Nat) :=
  (List.range' 1 (rows + shelves - 1)).findSome? (fun d => diagInner vm rows shelves d)

/-- Wrapper binding `rows = self.rows.len()` and
`shelves = self.rows[0].shelves.len()` (a panic when there is no row). -/
def Warehouse.diagonal_search (w : Warehouse) (vm : VMap) : Res (Option (Nat × Nat)) :=
  match w.rows.head? with
  | none => .crash
  | some r0 => .ok (diagonalSearch vm w.rows.length r0.shelves.length)

/-- `Warehouse::find_closest_to_start` (src/warehouse.rs lines 2173-2194).
The `while let` loop leaves the vacancy map untouched when the shelf found
by the scan has no vacant zone, so the source spins forever in that state;
fuel exhaustion models that divergence as a crash. -/
def Warehouse.find_closest_to_start_go (w : Warehouse) (max_level : Option Nat) :
    VMap → Nat → Res (Option (Nat × Nat × Nat × Nat) × VMap)
  | _, 0 => .crash
  | vm, fuel + 1 =>
    match w.diagonal_search vm with
    | .err e => .err e
    | .crash => .crash
    | .ok none => .ok (none, vm)
    | .ok (some (row, shelf)) =>
      match idx1 w.rows row with
      | none => .crash
      | some r =>
        match idx1 r.shelves shelf with
        | none => .crash
        | some sh =>
          match sh.find_vacant_zone with
          | none => Warehouse.find_closest_to_start_go w max_level vm fuel
          | some (level, zone) =>
            let levels := sh.levels.length
            match idx1 sh.levels level with
            | none => .crash
            | some lv =>
              let zones := lv.zones.length
              if zone ≥ zones && level == max_level.getD levels then
                .ok (some (row, shelf, level, zone), vmInsert vm (row, shelf) false)
              else if level > max_level.getD levels then
                Warehouse.find_closest_to_start_go w max_level
                  (vmInsert vm (row, shelf) false) fuel
              else
                .ok (some (row, shelf, level, zone), vm)

def Warehouse.find_closest_to_start (w : Warehouse) (vm : VMap) (max_level : Option Nat) :
    Res (Option (Nat × Nat × Nat × Nat) × VMap) :=
  Warehouse.find_closest_to_start_go w max_level vm (w.check_capacity + vm.length + 2)

/-- Quantity loop of `Warehouse::place_stock_closest_to_start`
(src/warehouse.rs lines 2222-2252), threading the mutated vacancy map. -/
def Warehouse.place_closest_go (id : Nat) (expiry_date : Option Date)
    (max_level : Option Nat) :
    Warehouse → ProductList → VMap → Nat → Res (Warehouse × ProductList)
  | w, list, _, 0 => .ok (w, list)
  | w, list, vm, qty + 1 =>
    match w.find_closest_to_start vm max_level with
    | .err e => .err e
    | .crash => .crash
    | .ok (none, _) => .err .InsufficientSpace
    | .ok (some (row, shelf, level, zone), vm2) =>
      match ProductItem.new id list (row, shelf, level, zone) expiry_date with
      | .err e => .err e
      | .crash => .crash
      | .ok (item, list2) =>
        match w.add_item row shelf level zone item with
        | .err e => .err e
        | .crash => .crash
        | .ok w2 => Warehouse.place_closest_go id expiry_date max_level w2 list2 vm2 qty

/-- `Warehouse::place_stock_closest_to_start`: the `.unwrap()` on
`list.product(id).map(...)` panics when the product is not listed. -/
def Warehouse.place_stock_closest_to_start (w : Warehouse) (id : Nat) (list : ProductList)
    (qty : Nat) (expiry_date : Option Date) : Res (Warehouse × ProductList) :=
  match (list.product id).map Product.max_level with
  | none => .crash
  | some max_level =>
    Warehouse.place_closest_go id expiry_date max_level w list w.shelf_vacancy_map qty

/-- Comparator key of `Warehouse::sort_by_expiry_date`: a missing date is
replaced by the `9999-12-31` sentinel. -/
def expiryKey (item : ProductItem) : Nat :=
  item.expiry_date.getD lastDate

/-- The relation `Vec::sort_by` sorts by. -/
def itemLe (a b : ProductItem) : Prop :=
  expiryKey a ≤ expiryKey b

instance : DecidableRel itemLe := fun a b => Nat.decLe (expiryKey a) (expiryKey b)

instance : IsTotal ProductItem itemLe := ⟨fun a b => Nat.le_total (expiryKey a) (expiryKey b)⟩

instance : IsTrans ProductItem itemLe := ⟨fun _ _ _ => Nat.le_trans⟩

/-- `Warehouse::sort_by_expiry_date` (src/warehouse.rs lines 2412-2423):
`Vec::sort_by` is a stable sort by the expiry key; insertion sort computes
the same stably-sorted permutation. -/
def Warehouse.sort_by_expiry_date (item_list : List ProductItem) : List ProductItem :=
  List.insertionSort itemLe item_list

/-- `Warehouse::take_stock` loop (src/warehouse.rs lines 2442-2465):
`list.pop()` takes from the back of the vector; the popped items accumulate
in `taken_items` in consumption order. -/
def Warehouse.take_stock_go :
    Warehouse → List ProductItem → List ProductItem → Nat →
    Res (List ProductItem × Warehouse)
  | w, _, taken, 0 => .ok (taken, w)
  | w, list, taken, qty + 1 =>
    match list.getLast? with
    | none => .err .InsufficientStock
    | some item =>
      match w.remove_item item.placement.1 item.placement.2.1 item.placement.2.2.1
          item.placement.2.2.2 with
      | .ok w2 => Warehouse.take_stock_go w2 list.dropLast (taken ++ [item]) qty
      | .err e => .err e
      | .crash => .crash

def Warehouse.take_stock (w : Warehouse) (qty : Nat) (list : List ProductItem) :
    Res (List ProductItem × Warehouse) :=
  Warehouse.take_stock_go w list [] qty

/-- `Warehouse::remove_stock` (src/warehouse.rs lines 2467-2476): the
indexing `list[0]` panics on an empty collection; sorting happens only when
the first collected instance carries an expiry date. -/
def Warehouse.remove_stock (w : Warehouse) (id qty : Nat) : Res Warehouse :=
  let list := w.items_with_id id
  match list with
  | [] => .crash
  | x :: _ =>
    let list2 := if x.expiry_date.isSome then (Warehouse.sort_by_expiry_date list).reverse
      else list
    match w.take_stock qty list2 with
    | .ok (_, w2) => .ok w2
    | .err e => .err e
    | .crash => .crash

/-! ## Verification-side definitions -/

/-- Success value of a `Res`, with a default for the other outcomes (used
only to name computed results inside theorem statements). -/
def Res.okD (r : Res α) (d : α) : α :=
  match r with
  | .ok a => a
  | _ => d

/-- Weight of one zone in the vacancy count. -/
def zoneVacant (z : Zone) : Nat :=
  if z.item.isNone then 1 else 0

/-- Number of vacant zones of a level: zones whose occupant is `None`. -/
def Level.vacantCount (lv : Level) : Nat :=
  (lv.zones.map zoneVacant).sum

def Shelf.vacantCount (sh : Shelf) : Nat :=
  (sh.levels.map Level.vacantCount).sum

def Row.vacantCount (r : Row) : Nat :=
  (r.shelves.map Shelf.vacantCount).sum

def Warehouse.vacantCount (w : Warehouse) : Nat :=
  (w.rows.map Row.vacantCount).sum

/-- The spec's capacity invariant at a level: `available_space` equals the
number of vacant zones. -/
def Level.availOk (lv : Level) : Prop :=
  lv.available_space = lv.vacantCount

def Shelf.availOk (sh : Shelf) : Prop :=
  sh.available_space = sh.vacantCount ∧ ∀ lv ∈ sh.levels, lv.availOk

def Row.availOk (r : Row) : Prop :=
  r.available_space = r.vacantCount ∧ ∀ sh ∈ r.shelves, sh.availOk

/-- The spec's capacity invariant at every node of the tree. -/
def Warehouse.availOk (w : Warehouse) : Prop :=
  w.available_space = w.vacantCount ∧ ∀ r ∈ w.rows, r.availOk

/-- No zone of the level carries a `ProductStart` marker (the strengthening
carried through the single-zone-operation induction). -/
def Level.noSpan (lv : Level) : Prop :=
  ∀ z ∈ lv.zones, ∀ it last, z.item ≠ some (.ProductStart it last)

def Level.Inv (lv : Level) : Prop :=
  lv.available_space = lv.vacantCount ∧ lv.noSpan

def Shelf.Inv (sh : Shelf) : Prop :=
  sh.available_space = sh.vacantCount ∧ ∀ lv ∈ sh.levels, lv.Inv

def Row.Inv (r : Row) : Prop :=
  r.available_space = r.vacantCount ∧ ∀ sh ∈ r.shelves, sh.Inv

def Warehouse.Inv (w : Warehouse) : Prop :=
  w.available_space = w.vacantCount ∧ ∀ r ∈ w.rows, r.Inv

/-- A single-zone mutation request against the warehouse. -/
inductive WOp where
  | add (row shelf level zone : Nat) (item : ProductItem)
  | remove (row shelf level zone : Nat)

/-- Run one operation; a failed operation leaves the tree untouched (every
error path of the source returns before mutating). -/
def Warehouse.applyOp (w : Warehouse) (op : WOp) : Warehouse :=
  match op with
  | .add r s l z item =>
    match w.add_item r s l z item with
    | .ok w2 => w2
    | _ => w
  | .remove r s l z =>
    match w.remove_item r s l z with
    | .ok w2 => w2
    | _ => w

def Warehouse.applyOps (w : Warehouse) (ops : List WOp) : Warehouse :=
  ops.foldl Warehouse.applyOp w

/-- The claim's encoding of a coordinate to its linear flat-map position:
row-major, then shelf, level, zone, written against the same positional
(1-based) indexing the decoder reports.  Defined from the spec's words,
independently of `flat_map_position_to_zone`, to state the round trip. -/
def Warehouse.encode_position (w : Warehouse) (r s l z : Nat) : Nat :=
  ((w.rows.take (r - 1)).map Row.check_capacity).sum +
    match w.rows.get? (r - 1) with
    | some row =>
      ((row.shelves.take (s - 1)).map Shelf.check_capacity).sum +
        match row.shelves.get? (s - 1) with
        | some sh =>
          ((sh.levels.take (l - 1)).map Level.check_capacity).sum + (z - 1)
        | none => 0
    | none => 0

/-! ## Concrete inputs used by the counterexamples and failing-input
evaluations -/

/-- One listed product of `Normal` quality. -/
def plApple : ProductList :=
  { products := [{ id := 1, name := "Apple", price := 100, quantity := 0,
                   quality := .Normal }] }

def itemSingle : ProductItem :=
  { id := 7, placement := (1, 1, 1, 1), zones_required := 1, expiry_date := none }

def itemSpanTwo : ProductItem :=
  { id := 8, placement := (1, 1, 1, 1), zones_required := 2, expiry_date := none }

def itemSpanThree : ProductItem :=
  { id := 9, placement := (1, 1, 1, 1), zones_required := 3, expiry_date := none }

/-- A freshly initialized level of three zones. -/
def levelThree : Level :=
  (Level.new 1).initialize_zones 3

/-- `levelThree` with a whole product occupying zone 1. -/
def levelThreeOcc : Level :=
  (levelThree.add_item 1 itemSingle).okD levelThree

/-- 1 row × 1 shelf × 1 level × 3 zones. -/
def wThreeZones : Warehouse :=
  (Warehouse.new).initialize_rows 1 1 1 3

/-- `wThreeZones` after placing a whole product at `(1,1,1,1)`. -/
def wThreeOcc : Warehouse :=
  wThreeZones.applyOps [.add 1 1 1 1 itemSingle]

/-- 1 row × 1 shelf × 1 level × 2 zones. -/
def wTwoZones : Warehouse :=
  (Warehouse.new).initialize_rows 1 1 1 2

/-- `levelThreeOcc` after the oversized placement that the fit check lets
through over the occupied anchor zone. -/
def levelThreeOver : Level :=
  (levelThreeOcc.add_oversized_item 1 itemSpanTwo).okD levelThree

/-- `wThreeOcc` after the same oversized placement, at warehouse granularity. -/
def wC2bad : Warehouse :=
  (wThreeOcc.add_oversized_item 1 1 1 1 itemSpanTwo).okD Warehouse.new

/-- 1 row × 1 shelf × 1 level × 1 zone, entirely vacant. -/
def wOneZone : Warehouse :=
  (Warehouse.new).initialize_rows 1 1 1 1

/-- The two dated batches of the FEFO scenario, placed by Contiguous
restocks on the default 2×6×4×10 warehouse. -/
def wDefault : Warehouse :=
  (Warehouse.new).initialize_rows 2 6 4 10

def fefoStep1 : Res (Warehouse × ProductList) :=
  wDefault.place_contiguous_stock 1 plApple 50 (some 20211231)

def fefoStep2 : Res (Warehouse × ProductList) :=
  match fefoStep1 with
  | .ok (w, l) => w.place_contiguous_stock 1 l 50 (some 20221231)
  | .err e => .err e
  | .crash => .crash

def fefoStep3 : Res Warehouse :=
  match fefoStep2 with
  | .ok (w, _) => w.remove_stock 1 50
  | .err e => .err e
  | .crash => .crash

/-- Expiry dates of the product instances remaining after the scenario. -/
def fefoRemaining : Option (List (Option Date)) :=
  match fefoStep3 with
  | .ok w => some ((w.items_with_id 1).map (fun item => item.expiry_date))
  | _ => none

/-- The three instances of the C7 counterexample: the first collected one is
dateless, the later two are dated. -/
def itemNoDate : ProductItem :=
  { id := 1, placement := (1, 1, 1, 1), zones_required := 1, expiry_date := none }

def itemD2020 : ProductItem :=
  { id := 1, placement := (1, 1, 1, 2), zones_required := 1, expiry_date := some 20201231 }

def itemD2021 : ProductItem :=
  { id := 1, placement := (1, 1, 1, 3), zones_required := 1, expiry_date := some 20211231 }

def wFefoBad : Warehouse :=
  wThreeZones.applyOps [.add 1 1 1 1 itemNoDate, .add 1 1 1 2 itemD2020,
    .add 1 1 1 3 itemD2021]

def wFefoBadAfter : Warehouse :=
  (wFefoBad.remove_stock 1 1).okD wFefoBad

/-- Concrete instances for the C7 witness: both dated, earliest at zone 1. -/
def itemEarly : ProductItem :=
  { id := 1, placement := (1, 1, 1, 1), zones_required := 1, expiry_date := some 20211231 }

def itemLate : ProductItem :=
  { id := 1, placement := (1, 1, 1, 2), zones_required := 1, expiry_date := some 20221231 }

def wTwoDated : Warehouse :=
  wTwoZones.applyOps [.add 1 1 1 1 itemEarly, .add 1 1 1 2 itemLate]

def fefoSmall : Res (List ProductItem × Warehouse) :=
  wTwoDated.take_stock 1 ((Warehouse.sort_by_expiry_date (itemEarly :: [itemLate])).reverse)

def fefoSmallTaken : List ProductItem :=
  (fefoSmall.okD ([], wTwoDated)).1

def fefoSmallW : Warehouse :=
  (fefoSmall.okD ([], wTwoDated)).2

/-- A `Fragile(3)` product listed under id 2. -/
def plBanana : ProductList :=
  { products := [{ id := 2, name := "Banana", price := 50, quantity := 0,
                   quality := .Fragile 3 }] }

/-! ## Generic list lemmas -/

theorem updateFirst_sum {α : Type} (g : α → Nat) (p : α → Bool) (f : α → α) :
    ∀ (xs : List α) (x : α), xs.find? p = some x →
      ((updateFirst p f xs).map g).sum + g x = (xs.map g).sum + g (f x) := by
  intro xs
  induction xs with
  | nil => intro x h; simp at h
  | cons a as ih =>
    intro x h
    by_cases hp : p a
    · rw [List.find?_cons_of_pos _ hp] at h
      cases h
      simp [updateFirst, hp]
      omega
    · rw [List.find?_cons_of_neg _ hp] at h
      have := ih x h
      simp [updateFirst, hp]
      omega

/-- `updateFirst_sum` specialized to replacing the found element by a fixed
value, stated without the beta redex. -/
theorem updateFirst_sum_const {α : Type} (g : α → Nat) (p : α → Bool) (y : α)
    (xs : List α) (x : α) (h : xs.find? p = some x) :
    ((updateFirst p (fun _ => y) xs).map g).sum + g x = (xs.map g).sum + g y :=
  updateFirst_sum g p (fun _ => y) xs x h

theorem updateFirst_mem {α : Type} (p : α → Bool) (f : α → α) :
    ∀ (xs : List α) (y : α), y ∈ updateFirst p f xs →
      y ∈ xs ∨ ∃ x, x ∈ xs ∧ y = f x := by
  intro xs
  induction xs with
  | nil => intro y hy; simp [updateFirst] at hy
  | cons a as ih =>
    intro y hy
    by_cases hp : p a
    · simp only [updateFirst, hp, if_pos] at hy
      rcases List.mem_cons.mp hy with h | h
      · exact Or.inr ⟨a, List.mem_cons_self a as, h⟩
      · exact Or.inl (List.mem_cons_of_mem a h)
    · simp only [updateFirst, hp, if_neg, Bool.false_eq_true, not_false_iff] at hy
      rcases List.mem_cons.mp hy with h | h
      · exact Or.inl (h ▸ List.mem_cons_self a as)
      · rcases ih y h with h2 | ⟨x, hx, hfx⟩
        · exact Or.inl (List.mem_cons_of_mem a h2)
        · exact Or.inr ⟨x, List.mem_cons_of_mem a hx, hfx⟩

theorem foldl_preserve {α β : Type} {P : β → Prop} (f : β → α → β)
    (hf : ∀ b a, P b → P (f b a)) :
    ∀ (l : List α) (b : β), P b → P (l.foldl f b) := by
  intro l
  induction l with
  | nil => intro b hb; simpa using hb
  | cons a as ih => intro b hb; simpa using ih (f b a) (hf b a hb)

/-! ## Claim theorems -/

/-- C1: the oversized fit check scans flat-map indices
`zone_number..=last_zone`, which are the zones one past the intended span, so
a span whose anchor zone is occupied but whose successor zones are free is
accepted: the placement succeeds and the anchor's occupant is overwritten,
instead of failing with `ZoneOccupied`.  Failing input: a three-zone level
whose zone 1 holds a whole product; `add_oversized_item` at zone 1 with
`zones_required = 2`. -/
theorem spec_C1_oversized_overwrites_occupied_zone :
    levelThreeOcc.zone 1 = some { number := 1, item := some (.WholeProduct itemSingle) }
    ∧ levelThreeOcc.add_oversized_item 1 itemSpanTwo = .ok levelThreeOver
    ∧ levelThreeOver.zone 1 = some { number := 1, item := some (.ProductStart itemSpanTwo 2) }
    ∧ levelThreeOver.zone 2 = some { number := 2, item := some (.ProductEnd 1) } := by
  decide

/-- C10: with a three-zone level entirely vacant and a span of
`zones_required = 3` starting at zone 1 (so the span ends exactly at the
level's last zone and fits in bounds), `add_oversized_item` panics: the fit
check reads `map.chars().nth(3).unwrap()` past the end of the three-character
flat map, instead of returning a normal `Result`. -/
theorem spec_C10_in_bounds_span_panics :
    levelThree.zones.all Zone.is_empty = true
    ∧ itemSpanThree.zones_required = 3
    ∧ 1 + itemSpanThree.zones_required - 1 ≤ levelThree.zones.length
    ∧ levelThree.add_oversized_item 1 itemSpanThree = .crash := by
  decide

/-- C2 counterexample: starting from an initialized 1×1×1×3 warehouse, the
placement sequence [add_item at (1,1,1,1); add_oversized_item at (1,1,1,1)
with a 2-zone span] reaches a state whose warehouse counter reads 0 while
one zone is still vacant — `available_space` does not equal the number of
vacant zones, refuting the claim for sequences containing multi-zone
placements. -/
theorem spec_C2_counterexample :
    wThreeOcc.add_oversized_item 1 1 1 1 itemSpanTwo = .ok wC2bad
    ∧ wC2bad.available_space = 0
    ∧ Warehouse.vacantCount wC2bad = 1 := by
  decide

/-- C3: under the RoundRobin strategy, restocking 3 units of a `Normal`
product into an empty 1×1×1×2 warehouse (quantity exceeding the total free
capacity of 2) panics with an index out of bounds — `Warehouse::add_qty`
checks `row > self.rows.len()` before incrementing `row`, so the loop
re-enters with `row = rows.len() + 1` and `self.rows[row - 1]` lies past
the end — instead of returning `InsufficientSpace`/`NoContiguousSpace`. -/
theorem spec_C3_round_robin_overflow_panics :
    wTwoZones.check_capacity = 2
    ∧ wTwoZones.available_space = 2
    ∧ wTwoZones.place_stock_in_round_robin 1 plApple 3 none = .crash := by
  decide

/-- C5: with zone `(1,1,1,1)` occupied and zones 2 and 3 free, the claim
says RoundRobin resumes at `(1,1,1,2)`; the code decodes the last occupied
flat position without the `+1` shift that `find_first_contiguous_space`
applies, yielding the coordinate `(1,1,1,0)` (a zone number that does not
exist), and the placement fails with `ZoneNotFound` instead of placing at
`(1,1,1,2)`. -/
theorem spec_C5_continuation_points_before_last_occupied :
    wThreeOcc.flat_map = ['1', '0', '0']
    ∧ wThreeOcc.find_round_robin_continuation wThreeOcc.flat_map = some (1, 1, 1, 0)
    ∧ wThreeOcc.place_stock_in_round_robin 1 plApple 1 none = .err .ZoneNotFound := by
  decide

/-- C8: removing stock of a product with zero instances in the warehouse
panics — `remove_stock` indexes `list[0]` on the empty collected list —
instead of returning `InsufficientStock`. -/
theorem spec_C8_zero_instances_panics :
    wThreeZones.items_with_id 5 = []
    ∧ wThreeZones.remove_stock 5 1 = .crash := by
  decide

/-- C9: for a product of quality `Fragile(max_level)` or
`OversizedAndFragile(_, max_level)`, creating a placed item fails with
`FragileObjectWithoutExpiration` when no expiry date is supplied, fails with
`LevelTooHigh` when (an expiry date is supplied and) the target level
exceeds `max_level`, and succeeds exactly when the expiry date is present
and the placement level is at or below `max_level`. -/
theorem spec_C9_fragility_checks (id : Nat) (list : ProductList)
    (placement : Nat × Nat × Nat × Nat) (expiry_date : Option Date)
    (p : Product) (maxlvl : Nat) (hfind : list.product id = some p)
    (hq : p.quality = .Fragile maxlvl ∨ ∃ zr, p.quality = .OversizedAndFragile zr maxlvl) :
    (expiry_date = none →
      ProductItem.new id list placement expiry_date = .err .FragileObjectWithoutExpiration)
    ∧ (expiry_date.isSome → placement.2.2.1 > maxlvl →
      ProductItem.new id list placement expiry_date = .err .LevelTooHigh)
    ∧ (expiry_date.isSome → placement.2.2.1 ≤ maxlvl →
      ∃ item list2, ProductItem.new id list placement expiry_date = .ok (item, list2)
        ∧ item.id = id ∧ item.placement = placement ∧ item.expiry_date = expiry_date) := by
  rcases hq with hq | ⟨zr, hq⟩ <;>
  · refine ⟨?_, ?_, ?_⟩
    · intro he
      simp [ProductItem.new, hfind, hq, he]
    · intro hs hl
      rcases Option.isSome_iff_exists.mp hs with ⟨d, hd⟩
      subst hd
      simp [ProductItem.new, hfind, hq, hl]
    · intro hs hl
      rcases Option.isSome_iff_exists.mp hs with ⟨d, hd⟩
      subst hd
      have hnl : ¬ placement.2.2.1 > maxlvl := Nat.not_lt.mpr hl
      simp [ProductItem.new, hfind, hq, hnl]

/-! ## C2: capacity bookkeeping under single-zone operations -/

theorem Zone.add_ok (z z2 : Zone) (item : ProductItem) (h : z.add item = .ok z2) :
    z.item = none ∧ z2 = { z with item := some (.WholeProduct item) } := by
  unfold Zone.add at h
  split at h
  · simp at h
  · rename_i hsome
    injection h with h2
    refine ⟨?_, h2.symm⟩
    cases hz : z.item with
    | none => rfl
    | some p => rw [hz] at hsome; simp at hsome

theorem Zone.remove_ok (z z2 : Zone) (h : z.remove = .ok z2) :
    (∃ item, z.item = some (.WholeProduct item)) ∧ z2 = { z with item := none } := by
  unfold Zone.remove at h
  split at h
  · simp at h
  · rename_i item hz
    injection h with h2
    exact ⟨⟨item, hz⟩, h2.symm⟩
  · simp at h

theorem level_add_item_ok (lv lv2 : Level) (zn : Nat) (item : ProductItem)
    (h : lv.add_item zn item = .ok lv2) (hinv : lv.Inv) :
    lv2.Inv ∧ lv2.vacantCount + 1 = lv.vacantCount := by
  unfold Level.add_item at h
  split at h
  case h_2 => simp at h
  case h_1 z hz =>
    split at h
    case h_2 => simp at h
    case h_3 => simp at h
    case h_1 z2 hadd =>
      injection h with h2
      subst h2
      obtain ⟨hznone, hz2⟩ := Zone.add_ok z z2 item hadd
      have hsum := updateFirst_sum_const zoneVacant (fun zn0 => zn0.number == zn)
        z2 lv.zones z hz
      have hgz : zoneVacant z = 1 := by simp [zoneVacant, hznone]
      have hgz2 : zoneVacant z2 = 0 := by rw [hz2]; simp [zoneVacant]
      rw [hgz, hgz2] at hsum
      have hvc2 : Level.vacantCount { lv with
          zones := updateFirst (fun zn0 => zn0.number == zn) (fun _ => z2) lv.zones,
          available_space := lv.available_space - 1 }
          = ((updateFirst (fun zn0 => zn0.number == zn) (fun _ => z2) lv.zones).map
              zoneVacant).sum := rfl
      have hvc : lv.vacantCount = (lv.zones.map zoneVacant).sum := rfl
      have havail := hinv.1
      refine ⟨⟨?_, ?_⟩, ?_⟩
      · show lv.available_space - 1 = _
        rw [hvc2]
        omega
      · intro zz hzz it last
        rcases updateFirst_mem (fun zn0 => zn0.number == zn) (fun _ => z2) lv.zones zz hzz
          with hmem | ⟨x, _, hx⟩
        · exact hinv.2 zz hmem it last
        · rw [hx, hz2]
          simp
      · rw [hvc2]
        omega

theorem level_remove_item_ok (lv lv2 : Level) (zn : Nat)
    (h : lv.remove_item zn = .ok lv2) (hinv : lv.Inv) :
    lv2.Inv ∧ lv2.vacantCount = lv.vacantCount + 1 := by
  unfold Level.remove_item at h
  split at h
  case h_2 => simp at h
  case h_1 z hz =>
    split at h
    case h_2 => simp at h
    case h_3 => simp at h
    case h_1 z2 hrem =>
      injection h with h2
      subst h2
      obtain ⟨⟨it0, hzsome⟩, hz2⟩ := Zone.remove_ok z z2 hrem
      have hsum := updateFirst_sum_const zoneVacant (fun zn0 => zn0.number == zn)
        z2 lv.zones z hz
      have hgz : zoneVacant z = 0 := by simp [zoneVacant, hzsome]
      have hgz2 : zoneVacant z2 = 1 := by rw [hz2]; simp [zoneVacant]
      rw [hgz, hgz2] at hsum
      have hvc2 : Level.vacantCount { lv with
          zones := updateFirst (fun zn0 => zn0.number == zn) (fun _ => z2) lv.zones,
          available_space := lv.available_space + 1 }
          = ((updateFirst (fun zn0 => zn0.number == zn) (fun _ => z2) lv.zones).map
              zoneVacant).sum := rfl
      have hvc : lv.vacantCount = (lv.zones.map zoneVacant).sum := rfl
      have havail := hinv.1
      refine ⟨⟨?_, ?_⟩, ?_⟩
      · show lv.available_space + 1 = _
        rw [hvc2]
        omega
      · intro zz hzz it last
        rcases updateFirst_mem (fun zn0 => zn0.number == zn) (fun _ => z2) lv.zones zz hzz
          with hmem | ⟨x, _, hx⟩
        · exact hinv.2 zz hmem it last
        · rw [hx, hz2]
          simp
      · rw [hvc2]
        omega

theorem shelf_add_item_ok (sh sh2 : Shelf) (ln zn : Nat) (item : ProductItem)
    (h : sh.add_item ln zn item = .ok sh2) (hinv : sh.Inv) :
    sh2.Inv ∧ sh2.vacantCount + 1 = sh.vacantCount := by
  unfold Shelf.add_item at h
  split at h
  case h_2 => simp at h
  case h_1 lv hlv =>
    split at h
    case h_2 => simp at h
    case h_3 => simp at h
    case h_1 lv2 hadd =>
      injection h with h2
      subst h2
      have hmem := List.mem_of_find?_eq_some hlv
      obtain ⟨hlv2Inv, hvac⟩ := level_add_item_ok lv lv2 zn item hadd (hinv.2 lv hmem)
      have hsum := updateFirst_sum_const Level.vacantCount (fun l => l.number == ln)
        lv2 sh.levels lv hlv
      have hvc2 : Shelf.vacantCount { sh with
          levels := updateFirst (fun l => l.number == ln) (fun _ => lv2) sh.levels,
          available_space := sh.available_space - 1 }
          = ((updateFirst (fun l => l.number == ln) (fun _ => lv2) sh.levels).map
              Level.vacantCount).sum := rfl
      have hvc : Shelf.vacantCount sh = (sh.levels.map Level.vacantCount).sum := rfl
      have havail := hinv.1
      refine ⟨⟨?_, ?_⟩, ?_⟩
      · show sh.available_space - 1 = _
        rw [hvc2]
        omega
      · intro l2 hl2
        rcases updateFirst_mem (fun l => l.number == ln) (fun _ => lv2) sh.levels l2 hl2
          with hm | ⟨x, _, hx⟩
        · exact hinv.2 l2 hm
        · rw [hx]
          exact hlv2Inv
      · rw [hvc2]
        omega

theorem shelf_remove_item_ok (sh sh2 : Shelf) (ln zn : Nat)
    (h : sh.remove_item ln zn = .ok sh2) (hinv : sh.Inv) :
    sh2.Inv ∧ sh2.vacantCount = sh.vacantCount + 1 := by
  unfold Shelf.remove_item at h
  split at h
  case h_2 => simp at h
  case h_1 lv hlv =>
    split at h
    case h_2 => simp at h
    case h_3 => simp at h
    case h_1 lv2 hrem =>
      injection h with h2
      subst h2
      have hmem := List.mem_of_find?_eq_some hlv
      obtain ⟨hlv2Inv, hvac⟩ := level_remove_item_ok lv lv2 zn hrem (hinv.2 lv hmem)
      have hsum := updateFirst_sum_const Level.vacantCount (fun l => l.number == ln)
        lv2 sh.levels lv hlv
      have hvc2 : Shelf.vacantCount { sh with
          levels := updateFirst (fun l => l.number == ln) (fun _ => lv2) sh.levels,
          available_space := sh.available_space + 1 }
          = ((updateFirst (fun l => l.number == ln) (fun _ => lv2) sh.levels).map
              Level.vacantCount).sum := rfl
      have hvc : Shelf.vacantCount sh = (sh.levels.map Level.vacantCount).sum := rfl
      have havail := hinv.1
      refine ⟨⟨?_, ?_⟩, ?_⟩
      · show sh.available_space + 1 = _
        rw [hvc2]
        omega
      · intro l2 hl2
        rcases updateFirst_mem (fun l => l.number == ln) (fun _ => lv2) sh.levels l2 hl2
          with hm | ⟨x, _, hx⟩
        · exact hinv.2 l2 hm
        · rw [hx]
          exact hlv2Inv
      · rw [hvc2]
        omega

theorem row_add_item_ok (r r2 : Row) (sn ln zn : Nat) (item : ProductItem)
    (h : r.add_item sn ln zn item = .ok r2) (hinv : r.Inv) :
    r2.Inv ∧ r2.vacantCount + 1 = r.vacantCount := by
  unfold Row.add_item at h
  split at h
  case h_2 => simp at h
  case h_1 sh hsh =>
    split at h
    case h_2 => simp at h
    case h_3 => simp at h
    case h_1 sh2 hadd =>
      injection h with h2
      subst h2
      have hmem := List.mem_of_find?_eq_some hsh
      obtain ⟨hsh2Inv, hvac⟩ := shelf_add_item_ok sh sh2 ln zn item hadd (hinv.2 sh hmem)
      have hsum := updateFirst_sum_const Shelf.vacantCount (fun s => s.number == sn)
        sh2 r.shelves sh hsh
      have hvc2 : Row.vacantCount { r with
          shelves := updateFirst (fun s => s.number == sn) (fun _ => sh2) r.shelves,
          available_space := r.available_space - 1 }
          = ((updateFirst (fun s => s.number == sn) (fun _ => sh2) r.shelves).map
              Shelf.vacantCount).sum := rfl
      have hvc : Row.vacantCount r = (r.shelves.map Shelf.vacantCount).sum := rfl
      have havail := hinv.1
      refine ⟨⟨?_, ?_⟩, ?_⟩
      · show r.available_space - 1 = _
        rw [hvc2]
        omega
      · intro s2 hs2
        rcases updateFirst_mem (fun s => s.number == sn) (fun _ => sh2) r.shelves s2 hs2
          with hm | ⟨x, _, hx⟩
        · exact hinv.2 s2 hm
        · rw [hx]
          exact hsh2Inv
      · rw [hvc2]
        omega

theorem row_remove_item_ok (r r2 : Row) (sn ln zn : Nat)
    (h : r.remove_item sn ln zn = .ok r2) (hinv : r.Inv) :
    r2.Inv ∧ r2.vacantCount = r.vacantCount + 1 := by
  unfold Row.remove_item at h
  split at h
  case h_2 => simp at h
  case h_1 sh hsh =>
    split at h
    case h_2 => simp at h
    case h_3 => simp at h
    case h_1 sh2 hrem =>
      injection h with h2
      subst h2
      have hmem := List.mem_of_find?_eq_some hsh
      obtain ⟨hsh2Inv, hvac⟩ := shelf_remove_item_ok sh sh2 ln zn hrem (hinv.2 sh hmem)
      have hsum := updateFirst_sum_const Shelf.vacantCount (fun s => s.number == sn)
        sh2 r.shelves sh hsh
      have hvc2 : Row.vacantCount { r with
          shelves := updateFirst (fun s => s.number == sn) (fun _ => sh2) r.shelves,
          available_space := r.available_space + 1 }
          = ((updateFirst (fun s => s.number == sn) (fun _ => sh2) r.shelves).map
              Shelf.vacantCount).sum := rfl
      have hvc : Row.vacantCount r = (r.shelves.map Shelf.vacantCount).sum := rfl
      have havail := hinv.1
      refine ⟨⟨?_, ?_⟩, ?_⟩
      · show r.available_space + 1 = _
        rw [hvc2]
        omega
      · intro s2 hs2
        rcases updateFirst_mem (fun s => s.number == sn) (fun _ => sh2) r.shelves s2 hs2
          with hm | ⟨x, _, hx⟩
        · exact hinv.2 s2 hm
        · rw [hx]
          exact hsh2Inv
      · rw [hvc2]
        omega

theorem Warehouse.add_item_inv (w w2 : Warehouse) (rn sn ln zn : Nat) (item : ProductItem)
    (h : w.add_item rn sn ln zn item = .ok w2) (hinv : w.Inv) : w2.Inv := by
  unfold Warehouse.add_item at h
  split at h
  case h_2 => simp at h
  case h_1 r hr =>
    split at h
    case h_2 => simp at h
    case h_3 => simp at h
    case h_1 r2 hadd =>
      injection h with h2
      subst h2
      have hmem := List.mem_of_find?_eq_some hr
      obtain ⟨hr2Inv, hvac⟩ := row_add_item_ok r r2 sn ln zn item hadd (hinv.2 r hmem)
      have hsum := updateFirst_sum_const Row.vacantCount (fun rr => rr.number == rn)
        r2 w.rows r hr
      have hvc2 : Warehouse.vacantCount { w with
          rows := updateFirst (fun rr => rr.number == rn) (fun _ => r2) w.rows,
          available_space := w.available_space - 1 }
          = ((updateFirst (fun rr => rr.number == rn) (fun _ => r2) w.rows).map
              Row.vacantCount).sum := rfl
      have hvc : Warehouse.vacantCount w = (w.rows.map Row.vacantCount).sum := rfl
      have havail := hinv.1
      refine ⟨?_, ?_⟩
      · show w.available_space - 1 = _
        rw [hvc2]
        omega
      · intro rr2 hrr2
        rcases updateFirst_mem (fun rr => rr.number == rn) (fun _ => r2) w.rows rr2 hrr2
          with hm | ⟨x, _, hx⟩
        · exact hinv.2 rr2 hm
        · rw [hx]
          exact hr2Inv

theorem level_remove_oversized_err (lv : Level) (zn : Nat) (hns : lv.noSpan) :
    ∃ e, lv.remove_oversized_item zn = .err e := by
  have hrange : lv.get_oversized_range zn = none := by
    unfold Level.get_oversized_range
    split
    case h_1 z hz =>
      split
      case h_1 it last hit =>
        exact absurd hit (hns z (List.mem_of_find?_eq_some hz) it last)
      case h_2 => rfl
    case h_2 => rfl
  unfold Level.remove_oversized_item
  rw [hrange]
  exact ⟨_, rfl⟩

theorem shelf_remove_oversized_err (sh : Shelf) (ln zn : Nat)
    (hns : ∀ lv ∈ sh.levels, lv.noSpan) :
    ∃ e, sh.remove_oversized_item ln zn = .err e := by
  unfold Shelf.remove_oversized_item
  split
  case h_1 => exact ⟨_, rfl⟩
  case h_2 item hitem =>
    split
    case h_2 => exact ⟨_, rfl⟩
    case h_1 lv hlv =>
      obtain ⟨e, he⟩ := level_remove_oversized_err lv zn
        (hns lv (List.mem_of_find?_eq_some hlv))
      rw [he]
      exact ⟨e, rfl⟩

theorem row_remove_oversized_err (r : Row) (sn ln zn : Nat)
    (hns : ∀ sh ∈ r.shelves, ∀ lv ∈ sh.levels, lv.noSpan) :
    ∃ e, r.remove_oversized_item sn ln zn = .err e := by
  unfold Row.remove_oversized_item
  split
  case h_1 => exact ⟨_, rfl⟩
  case h_2 item hitem =>
    split
    case h_2 => exact ⟨_, rfl⟩
    case h_1 sh hsh =>
      obtain ⟨e, he⟩ := shelf_remove_oversized_err sh ln zn
        (hns sh (List.mem_of_find?_eq_some hsh))
      rw [he]
      exact ⟨e, rfl⟩

theorem Warehouse.remove_item_inv (w w2 : Warehouse) (rn sn ln zn : Nat)
    (h : w.remove_item rn sn ln zn = .ok w2) (hinv : w.Inv) : w2.Inv := by
  unfold Warehouse.remove_item at h
  split at h
  case h_1 => simp at h
  case h_2 item hitem =>
    split at h
    case h_2 => simp at h
    case h_1 r hr =>
      have hmem := List.mem_of_find?_eq_some hr
      have hrInv := hinv.2 r hmem
      by_cases hzr : item.zones_required > 1
      · rw [if_pos hzr] at h
        obtain ⟨e, he⟩ := row_remove_oversized_err r sn ln zn
          (fun sh hsh lv hlv => ((hrInv.2 sh hsh).2 lv hlv).2)
        rw [he] at h
        simp at h
      · rw [if_neg hzr] at h
        split at h
        next r2 hrem =>
          injection h with h2
          subst h2
          obtain ⟨hr2Inv, hvac⟩ := row_remove_item_ok r r2 sn ln zn hrem hrInv
          have hsum := updateFirst_sum_const Row.vacantCount (fun rr => rr.number == rn)
            r2 w.rows r hr
          have hvc2 : Warehouse.vacantCount { w with
              rows := updateFirst (fun rr => rr.number == rn) (fun _ => r2) w.rows,
              available_space := w.available_space + 1 }
              = ((updateFirst (fun rr => rr.number == rn) (fun _ => r2) w.rows).map
                  Row.vacantCount).sum := rfl
          have hvc : Warehouse.vacantCount w = (w.rows.map Row.vacantCount).sum := rfl
          have havail := hinv.1
          refine ⟨?_, ?_⟩
          · show w.available_space + 1 = _
            rw [hvc2]
            omega
          · intro rr2 hrr2
            rcases updateFirst_mem (fun rr => rr.number == rn) (fun _ => r2) w.rows rr2 hrr2
              with hm | ⟨x, _, hx⟩
            · exact hinv.2 rr2 hm
            · rw [hx]
              exact hr2Inv
        next => simp at h
        next => simp at h

theorem Warehouse.applyOp_inv (w : Warehouse) (op : WOp) (hinv : w.Inv) :
    (w.applyOp op).Inv := by
  cases op with
  | add r s l z item =>
    show (match w.add_item r s l z item with
      | .ok w2 => w2
      | _ => w).Inv
    split
    next w2 h => exact Warehouse.add_item_inv w w2 r s l z item h hinv
    all_goals exact hinv
  | remove r s l z =>
    show (match w.remove_item r s l z with
      | .ok w2 => w2
      | _ => w).Inv
    split
    next w2 h => exact Warehouse.remove_item_inv w w2 r s l z h hinv
    all_goals exact hinv

theorem level_initialize_inv (n k : Nat) : ((Level.new n).initialize_zones k).Inv := by
  unfold Level.initialize_zones
  refine foldl_preserve _ ?_ (List.range k) (Level.new n) ?_
  · intro lv i hlv
    constructor
    · show lv.available_space + 1 = _
      have hvc : Level.vacantCount (lv.add_zone (Zone.new (i + 1) none))
          = lv.vacantCount + zoneVacant (Zone.new (i + 1) none) := by
        unfold Level.add_zone Level.vacantCount
        simp
      rw [hvc]
      have hz1 : zoneVacant (Zone.new (i + 1) none) = 1 := rfl
      have := hlv.1
      omega
    · intro z hz it last
      rcases List.mem_append.mp hz with hm | hm
      · exact hlv.2 z hm it last
      · simp at hm
        subst hm
        simp [Zone.new]
  · exact ⟨rfl, by intro z hz; simp [Level.new] at hz⟩

theorem Shelf.add_level_inv (sh : Shelf) (lv : Level) (hsh : sh.Inv) (hlv : lv.Inv) :
    (sh.add_level lv).Inv := by
  constructor
  · show sh.available_space + lv.available_space = _
    have hvc : Shelf.vacantCount (sh.add_level lv) = sh.vacantCount + lv.vacantCount := by
      unfold Shelf.add_level Shelf.vacantCount
      simp
    rw [hvc]
    have := hsh.1
    have := hlv.1
    omega
  · intro l2 hl2
    rcases List.mem_append.mp hl2 with hm | hm
    · exact hsh.2 l2 hm
    · simp at hm
      subst hm
      exact hlv

theorem shelf_initialize_inv (n lc zc : Nat) : ((Shelf.new n).initialize_columns lc zc).Inv := by
  unfold Shelf.initialize_columns
  refine foldl_preserve _ ?_ (List.range lc) (Shelf.new n) ?_
  · intro s i hs
    exact Shelf.add_level_inv s _ hs (level_initialize_inv (i + 1) zc)
  · exact ⟨rfl, by intro lv hlv; simp [Shelf.new] at hlv⟩

theorem Row.add_shelf_inv (r : Row) (sh : Shelf) (hr : r.Inv) (hsh : sh.Inv) :
    (r.add_shelf sh).Inv := by
  constructor
  · show r.available_space + sh.available_space = _
    have hvc : Row.vacantCount (r.add_shelf sh) = r.vacantCount + sh.vacantCount := by
      unfold Row.add_shelf Row.vacantCount
      simp
    rw [hvc]
    have := hr.1
    have := hsh.1
    omega
  · intro s2 hs2
    rcases List.mem_append.mp hs2 with hm | hm
    · exact hr.2 s2 hm
    · simp at hm
      subst hm
      exact hsh

theorem row_initialize_inv (n sc lc zc : Nat) :
    ((Row.new n).initialize_shelves sc lc zc).Inv := by
  unfold Row.initialize_shelves
  refine foldl_preserve _ ?_ (List.range sc) (Row.new n) ?_
  · intro r i hr
    exact Row.add_shelf_inv r _ hr (shelf_initialize_inv (i + 1) lc zc)
  · exact ⟨rfl, by intro sh hsh; simp [Row.new] at hsh⟩

theorem Warehouse.add_row_inv (w : Warehouse) (r : Row) (hw : w.Inv) (hr : r.Inv) :
    (w.add_row r).Inv := by
  constructor
  · show w.available_space + r.available_space = _
    have hvc : Warehouse.vacantCount (w.add_row r) = w.vacantCount + r.vacantCount := by
      unfold Warehouse.add_row Warehouse.vacantCount
      simp
    rw [hvc]
    have := hw.1
    have := hr.1
    omega
  · intro r2 hr2
    rcases List.mem_append.mp hr2 with hm | hm
    · exact hw.2 r2 hm
    · simp at hm
      subst hm
      exact hr

theorem warehouse_initialize_inv (rc sc lc zc : Nat) :
    ((Warehouse.new).initialize_rows rc sc lc zc).Inv := by
  unfold Warehouse.initialize_rows
  refine foldl_preserve _ ?_ (List.range rc) Warehouse.new ?_
  · intro w i hw
    exact Warehouse.add_row_inv w _ hw (row_initialize_inv (i + 1) sc lc zc)
  · exact ⟨rfl, by intro r hr; simp [Warehouse.new] at hr⟩

theorem shelf_inv_availOk (sh : Shelf) (h : sh.Inv) : sh.availOk :=
  ⟨h.1, fun lv hlv => (h.2 lv hlv).1⟩

theorem row_inv_availOk (r : Row) (h : r.Inv) : r.availOk :=
  ⟨h.1, fun sh hsh => shelf_inv_availOk sh (h.2 sh hsh)⟩

theorem warehouse_inv_availOk (w : Warehouse) (h : w.Inv) : w.availOk :=
  ⟨h.1, fun r hr => row_inv_availOk r (h.2 r hr)⟩

/-- C2, amended: starting from an initialized warehouse of any dimensions,
after every sequence of single-zone placement (`add_item`) and removal
(`remove_item`) operations — whether each operation succeeds or fails — the
`available_space` counter of every node (Level, Shelf, Row, Warehouse)
equals the number of zones in that node's subtree whose occupant is `None`
(so each successful mutation, flipping exactly one zone, moves every
ancestor's counter by exactly 1).  Multi-zone `add_oversized_item`
placements are excluded: the shifted fit check lets a span overwrite an
occupied anchor zone, after which the counters undercount the vacant zones
(see the counterexample). -/
theorem spec_C2_available_space_single_zone (rc sc lc zc : Nat) (ops : List WOp) :
    Warehouse.availOk (((Warehouse.new).initialize_rows rc sc lc zc).applyOps ops) := by
  refine warehouse_inv_availOk _ ?_
  unfold Warehouse.applyOps
  exact foldl_preserve Warehouse.applyOp
    (fun w op hw => Warehouse.applyOp_inv w op hw) ops
    ((Warehouse.new).initialize_rows rc sc lc zc)
    (warehouse_initialize_inv rc sc lc zc)

/-! ## C4: flat-map round trip -/

theorem Level.decode_lt (lv : Level) (p : Nat) (h : p < lv.zones.length) :
    lv.flat_map_position_to_zone p = some p := by
  simp [Level.flat_map_position_to_zone, h]

theorem sum_take_get {α : Type} (g : α → Nat) :
    ∀ (xs : List α) (i : Nat) (x : α), xs.get? i = some x →
      ((xs.take i).map g).sum + g x ≤ (xs.map g).sum := by
  intro xs
  induction xs with
  | nil => intro i x h; simp at h
  | cons a as ih =>
    intro i x h
    cases i with
    | zero =>
      rw [List.get?_cons_zero] at h
      cases h
      simp
    | succ k =>
      rw [List.get?_cons_succ] at h
      have := ih k x h
      simp only [List.take_succ_cons, List.map_cons, List.sum_cons]
      omega

theorem shelf_decodeGo_spec :
    ∀ (levels : List Level) (li : Nat) (lv : Level), levels.get? li = some lv →
      ∀ z, 1 ≤ z → z ≤ lv.zones.length → ∀ c i,
        Shelf.decodeGo levels (c + ((levels.take li).map Level.check_capacity).sum + (z - 1)) c i
          = some (i + li + 1, z - 1) := by
  intro levels
  induction levels with
  | nil => intro li lv h; simp at h
  | cons a as ih =>
    intro li lv h z hz1 hz c i
    cases li with
    | zero =>
      rw [List.get?_cons_zero] at h
      injection h with h2
      subst h2
      simp only [List.take_zero, List.map_nil, List.sum_nil, Nat.add_zero]
      have hcap : Level.check_capacity a = a.zones.length := rfl
      have hlt : c + (z - 1) < c + Level.check_capacity a := by omega
      simp only [Shelf.decodeGo]
      rw [if_pos hlt]
      have e : c + (z - 1) - c = z - 1 := by omega
      rw [e, Level.decode_lt a (z - 1) (by omega)]
      simp
    | succ k =>
      rw [List.get?_cons_succ] at h
      simp only [List.take_succ_cons, List.map_cons, List.sum_cons, Shelf.decodeGo]
      have e : c + (Level.check_capacity a + ((as.take k).map Level.check_capacity).sum)
            + (z - 1)
          = (c + Level.check_capacity a) + ((as.take k).map Level.check_capacity).sum
            + (z - 1) := by omega
      rw [e]
      have hge : ¬ ((c + Level.check_capacity a) + ((as.take k).map Level.check_capacity).sum
          + (z - 1) < c + Level.check_capacity a) := by omega
      rw [if_neg hge]
      rw [ih k lv h z hz1 hz (c + Level.check_capacity a) (i + 1)]
      have e2 : i + 1 + k + 1 = i + (k + 1) + 1 := by omega
      rw [e2]

theorem Shelf.decode_spec (sh : Shelf) (l z : Nat) (lv : Level)
    (hl : sh.levels.get? (l - 1) = some lv) (hl1 : 1 ≤ l) (hz1 : 1 ≤ z)
    (hz : z ≤ lv.zones.length) :
    sh.flat_map_position_to_zone
        (((sh.levels.take (l - 1)).map Level.check_capacity).sum + (z - 1))
      = some (l, z - 1) := by
  have h := shelf_decodeGo_spec sh.levels (l - 1) lv hl z hz1 hz 0 0
  have e : 0 + ((sh.levels.take (l - 1)).map Level.check_capacity).sum + (z - 1)
      = ((sh.levels.take (l - 1)).map Level.check_capacity).sum + (z - 1) := by omega
  have e2 : 0 + (l - 1) + 1 = l := by omega
  rw [e, e2] at h
  exact h

theorem row_decodeGo_spec :
    ∀ (shelves : List Shelf) (si : Nat) (sh : Shelf), shelves.get? si = some sh →
      ∀ q r2, q < sh.check_capacity → sh.flat_map_position_to_zone q = some r2 →
      ∀ c i, Row.decodeGo shelves (c + ((shelves.take si).map Shelf.check_capacity).sum + q) c i
        = some (i + si + 1, r2.1, r2.2) := by
  intro shelves
  induction shelves with
  | nil => intro si sh h; simp at h
  | cons a as ih =>
    intro si sh h q r2 hq hdec c i
    cases si with
    | zero =>
      rw [List.get?_cons_zero] at h
      injection h with h2
      subst h2
      simp only [List.take_zero, List.map_nil, List.sum_nil, Nat.add_zero]
      have hlt : c + q < c + Shelf.check_capacity a := by omega
      simp only [Row.decodeGo]
      rw [if_pos hlt]
      have e : c + q - c = q := by omega
      rw [e, hdec]
      simp
    | succ k =>
      rw [List.get?_cons_succ] at h
      simp only [List.take_succ_cons, List.map_cons, List.sum_cons, Row.decodeGo]
      have e : c + (Shelf.check_capacity a + ((as.take k).map Shelf.check_capacity).sum) + q
          = (c + Shelf.check_capacity a) + ((as.take k).map Shelf.check_capacity).sum + q := by
        omega
      rw [e]
      have hge : ¬ ((c + Shelf.check_capacity a) + ((as.take k).map Shelf.check_capacity).sum
          + q < c + Shelf.check_capacity a) := by omega
      rw [if_neg hge]
      rw [ih k sh h q r2 hq hdec (c + Shelf.check_capacity a) (i + 1)]
      have e2 : i + 1 + k + 1 = i + (k + 1) + 1 := by omega
      rw [e2]

theorem warehouse_decodeGo_spec :
    ∀ (rows : List Row) (ri : Nat) (row : Row), rows.get? ri = some row →
      ∀ q r3, q < row.check_capacity → row.flat_map_position_to_zone q = some r3 →
      ∀ c i, Warehouse.decodeGo rows (c + ((rows.take ri).map Row.check_capacity).sum + q) c i
        = some (i + ri + 1, r3.1, r3.2.1, r3.2.2) := by
  intro rows
  induction rows with
  | nil => intro ri row h; simp at h
  | cons a as ih =>
    intro ri row h q r3 hq hdec c i
    cases ri with
    | zero =>
      rw [List.get?_cons_zero] at h
      injection h with h2
      subst h2
      simp only [List.take_zero, List.map_nil, List.sum_nil, Nat.add_zero]
      have hlt : c + q < c + Row.check_capacity a := by omega
      simp only [Warehouse.decodeGo]
      rw [if_pos hlt]
      have e : c + q - c = q := by omega
      rw [e, hdec]
      simp
    | succ k =>
      rw [List.get?_cons_succ] at h
      simp only [List.take_succ_cons, List.map_cons, List.sum_cons, Warehouse.decodeGo]
      have e : c + (Row.check_capacity a + ((as.take k).map Row.check_capacity).sum) + q
          = (c + Row.check_capacity a) + ((as.take k).map Row.check_capacity).sum + q := by
        omega
      rw [e]
      have hge : ¬ ((c + Row.check_capacity a) + ((as.take k).map Row.check_capacity).sum
          + q < c + Row.check_capacity a) := by omega
      rw [if_neg hge]
      rw [ih k row h q r3 hq hdec (c + Row.check_capacity a) (i + 1)]
      have e2 : i + 1 + k + 1 = i + (k + 1) + 1 := by omega
      rw [e2]

/-- C4, amended: decoding the row-major linear position of an in-bounds
coordinate returns the same row, shelf and level, but the zone component
comes back as the 0-based offset `z - 1`, because
`Level::flat_map_position_to_zone` returns the raw position instead of a
1-based zone number; the round trip is `(r, s, l, z) ↦ (r, s, l, z - 1)`,
not the identity. -/
theorem spec_C4_roundtrip_shifted (w : Warehouse) (r s l z : Nat)
    (row : Row) (sh : Shelf) (lv : Level)
    (hr : w.rows.get? (r - 1) = some row) (hs : row.shelves.get? (s - 1) = some sh)
    (hl : sh.levels.get? (l - 1) = some lv)
    (hr1 : 1 ≤ r) (hs1 : 1 ≤ s) (hl1 : 1 ≤ l) (hz1 : 1 ≤ z) (hz : z ≤ lv.zones.length) :
    w.flat_map_position_to_zone (w.encode_position r s l z) = some (r, s, l, z - 1) := by
  have hlvle := sum_take_get Level.check_capacity sh.levels (l - 1) lv hl
  have hshle := sum_take_get Shelf.check_capacity row.shelves (s - 1) sh hs
  have hcapL : Level.check_capacity lv = lv.zones.length := rfl
  have hcapS : Shelf.check_capacity sh = (sh.levels.map Level.check_capacity).sum := rfl
  have hcapR : Row.check_capacity row = (row.shelves.map Shelf.check_capacity).sum := rfl
  have hzcap : z - 1 < Level.check_capacity lv := by omega
  have hsh : ((sh.levels.take (l - 1)).map Level.check_capacity).sum + (z - 1)
      < sh.check_capacity := by omega
  have hrow : ((row.shelves.take (s - 1)).map Shelf.check_capacity).sum
      + (((sh.levels.take (l - 1)).map Level.check_capacity).sum + (z - 1))
      < row.check_capacity := by omega
  have hdecsh := Shelf.decode_spec sh l z lv hl hl1 hz1 hz
  have hdecrow := row_decodeGo_spec row.shelves (s - 1) sh hs
    (((sh.levels.take (l - 1)).map Level.check_capacity).sum + (z - 1)) (l, z - 1)
    hsh hdecsh 0 0
  have es : 0 + ((row.shelves.take (s - 1)).map Shelf.check_capacity).sum
      + (((sh.levels.take (l - 1)).map Level.check_capacity).sum + (z - 1))
      = ((row.shelves.take (s - 1)).map Shelf.check_capacity).sum
      + (((sh.levels.take (l - 1)).map Level.check_capacity).sum + (z - 1)) := by omega
  have es2 : 0 + (s - 1) + 1 = s := by omega
  rw [es, es2] at hdecrow
  have hdecw := warehouse_decodeGo_spec w.rows (r - 1) row hr
    (((row.shelves.take (s - 1)).map Shelf.check_capacity).sum
      + (((sh.levels.take (l - 1)).map Level.check_capacity).sum + (z - 1)))
    (s, l, z - 1) hrow hdecrow 0 0
  have er : 0 + ((w.rows.take (r - 1)).map Row.check_capacity).sum
      + (((row.shelves.take (s - 1)).map Shelf.check_capacity).sum
        + (((sh.levels.take (l - 1)).map Level.check_capacity).sum + (z - 1)))
      = ((w.rows.take (r - 1)).map Row.check_capacity).sum
      + (((row.shelves.take (s - 1)).map Shelf.check_capacity).sum
        + (((sh.levels.take (l - 1)).map Level.check_capacity).sum + (z - 1))) := by omega
  have er2 : 0 + (r - 1) + 1 = r := by omega
  rw [er, er2] at hdecw
  have henc : w.encode_position r s l z
      = ((w.rows.take (r - 1)).map Row.check_capacity).sum
        + (((row.shelves.take (s - 1)).map Shelf.check_capacity).sum
          + (((sh.levels.take (l - 1)).map Level.check_capacity).sum + (z - 1))) := by
    simp only [Warehouse.encode_position, hr, hs]
  unfold Warehouse.flat_map_position_to_zone
  rw [henc]
  exact hdecw

/-- C4 counterexample: coordinate `(1,1,1,1)` is occupied in `wThreeOcc`;
its row-major linear position is 0, and decoding 0 yields `(1,1,1,0)`, not
the original coordinate. -/
theorem spec_C4_counterexample :
    (wThreeOcc.item 1 1 1 1).isSome = true
    ∧ wThreeOcc.encode_position 1 1 1 1 = 0
    ∧ wThreeOcc.flat_map_position_to_zone 0 = some (1, 1, 1, 0)
    ∧ ((1, 1, 1, 0) : Nat × Nat × Nat × Nat) ≠ (1, 1, 1, 1) := by
  decide

/-- Witness for the amended C4 round trip at `(1,1,1,2)` in `wThreeOcc`. -/
theorem spec_C4_roundtrip_shifted_witness :
    wThreeOcc.flat_map_position_to_zone (wThreeOcc.encode_position 1 1 1 2)
      = some (1, 1, 1, 1) :=
  spec_C4_roundtrip_shifted wThreeOcc 1 1 1 2
    ((wThreeOcc.rows.get? 0).getD (Row.new 0))
    (((wThreeOcc.rows.get? 0).getD (Row.new 0)).shelves.get? 0 |>.getD (Shelf.new 0))
    ((((wThreeOcc.rows.get? 0).getD (Row.new 0)).shelves.get? 0 |>.getD
        (Shelf.new 0)).levels.get? 0 |>.getD (Level.new 0))
    (by decide) (by decide) (by decide)
    (by decide) (by decide) (by decide) (by decide) (by decide)

/-! ## C6: diagonal scan of ClosestToStart -/

theorem findSome?_isSome_of_mem {α β : Type} (f : α → Option β) :
    ∀ (l : List α) (a : α), a ∈ l → ∀ b, f a = some b → (l.findSome? f).isSome := by
  intro l
  induction l with
  | nil => intro a ha; simp at ha
  | cons x xs ih =>
    intro a ha b hb
    rcases List.mem_cons.mp ha with h | h
    · subst h
      simp [List.findSome?_cons, hb]
    · cases hfx : f x with
      | some c => simp [List.findSome?_cons, hfx]
      | none =>
        rw [List.findSome?_cons, hfx]
        exact ih a h b hb

theorem diagCell_sound (vm : VMap) (rows shelves d i : Nat) (p : Nat × Nat)
    (h : diagCell vm rows shelves d i = some p) :
    vmGet vm p = some true ∧ p.1 ≤ rows ∧ p.2 ≤ shelves := by
  simp only [diagCell] at h
  split at h
  case isTrue hguard =>
    simp only [Bool.and_eq_true, decide_eq_true_eq] at hguard
    split at h
    case h_1 hv =>
      injection h with h2
      subst h2
      exact ⟨hv, hguard.1, hguard.2⟩
    case h_2 => exact absurd h (by simp)
  case isFalse => exact absurd h (by simp)

theorem diagCell_hit (vm : VMap) (rows shelves r s : Nat)
    (hrr : r ≤ rows) (hss : s ≤ shelves) (hv : vmGet vm (r, s) = some true) :
    diagCell vm rows shelves (r + s) r = some (r, s) := by
  unfold diagCell
  have e : r + s - r = s := by omega
  rw [e]
  rw [if_pos (by simp [hrr, hss])]
  rw [hv]

/-- C6, amended: the diagonal scan is sound — a returned cell is in bounds
and marked vacant — and complete only away from the final anti-diagonal:
whenever some cell `(r, s)` with `1 ≤ r ≤ rows`, `1 ≤ s ≤ shelves` and
`r + s < rows + shelves` is marked vacant, the scan returns a hit.  Cells
with `r + s = rows + shelves` (in particular the far corner, or the only
shelf of a 1×1 grid) are never visited, because the `while` loop stops at
`diagonal = rows + shelves - 1`, so placement can fail with
`InsufficientSpace` while such a shelf is still vacant. -/
theorem spec_C6_diagonal_scan (vm : VMap) (rows shelves : Nat) :
    (∀ p, diagonalSearch vm rows shelves = some p →
      vmGet vm p = some true ∧ p.1 ≤ rows ∧ p.2 ≤ shelves)
    ∧ (∀ r s, 1 ≤ r → r ≤ rows → 1 ≤ s → s ≤ shelves → r + s < rows + shelves →
      vmGet vm (r, s) = some true → (diagonalSearch vm rows shelves).isSome) := by
  constructor
  · intro p hp
    unfold diagonalSearch at hp
    rcases List.findSome?_eq_some_iff.mp hp with ⟨l1, d, l2, _, hd, _⟩
    unfold diagInner at hd
    rcases List.findSome?_eq_some_iff.mp hd with ⟨m1, i, m2, _, hi, _⟩
    exact diagCell_sound vm rows shelves d i p hi
  · intro r s hr1 hrr hs1 hss hlt hv
    have hcell := diagCell_hit vm rows shelves r s hrr hss hv
    have hinner : (diagInner vm rows shelves (r + s)).isSome := by
      unfold diagInner
      exact findSome?_isSome_of_mem (diagCell vm rows shelves (r + s))
        (List.range (r + s)) r (List.mem_range.mpr (by omega)) (r, s) hcell
    rcases Option.isSome_iff_exists.mp hinner with ⟨p, hp⟩
    unfold diagonalSearch
    refine findSome?_isSome_of_mem (diagInner vm rows shelves)
      (List.range' 1 (rows + shelves - 1)) (r + s) ?_ p hp
    rw [List.mem_range']
    exact ⟨r + s - 1, by omega, by omega⟩

/-- C6 counterexample: on the 1×1 grid whose only shelf is marked vacant,
the diagonal scan returns nothing — its `while` loop never reaches the
anti-diagonal `row + shelf = 2` — and a ClosestToStart restock of one unit
fails with `InsufficientSpace` even though a zone is free. -/
theorem spec_C6_counterexample :
    wOneZone.shelf_vacancy_map = [((1, 1), true)]
    ∧ diagonalSearch [((1, 1), true)] 1 1 = none
    ∧ wOneZone.available_space = 1
    ∧ wOneZone.place_stock_closest_to_start 1 plApple 1 none = .err .InsufficientSpace := by
  decide

/-- Witness for the amended C6 on a 2×2 grid with `(1,1)` vacant. -/
theorem spec_C6_diagonal_scan_witness :
    (diagonalSearch [((1, 1), true)] 2 2).isSome :=
  (spec_C6_diagonal_scan [((1, 1), true)] 2 2).2 1 1 (by decide) (by decide) (by decide)
    (by decide) (by decide) (by decide)

/-! ## C7: first-expired-first-out removal -/

theorem reverse_getLast {α : Type} (l : List α) (x : α) (h : l.getLast? = some x) :
    l.reverse = x :: l.dropLast.reverse := by
  rcases List.eq_nil_or_concat l with rfl | ⟨l2, a, rfl⟩
  · simp at h
  · rw [List.concat_eq_append] at h ⊢
    rw [List.getLast?_concat] at h
    injection h with h2
    subst h2
    simp

/-- On success, `take_stock` consumes exactly the last `qty` elements of the
working list, back to front. -/
theorem take_stock_go_taken :
    ∀ (qty : Nat) (w : Warehouse) (list taken res : List ProductItem) (w2 : Warehouse),
      Warehouse.take_stock_go w list taken qty = .ok (res, w2) →
      res = taken ++ list.reverse.take qty := by
  intro qty
  induction qty with
  | zero =>
    intro w list taken res w2 h
    simp only [Warehouse.take_stock_go, Res.ok.injEq, Prod.mk.injEq] at h
    simp [h.1.symm]
  | succ qty ih =>
    intro w list taken res w2 h
    simp only [Warehouse.take_stock_go] at h
    split at h
    case h_1 => simp at h
    case h_2 item hlast =>
      split at h
      case h_1 w3 hrem =>
        have hres := ih w3 list.dropLast (taken ++ [item]) res w2 h
        rw [hres, reverse_getLast list item hlast]
        simp
      case h_2 => simp at h
      case h_3 => simp at h

theorem take_stock_taken (qty : Nat) (w w2 : Warehouse) (list taken : List ProductItem)
    (h : w.take_stock qty list = .ok (taken, w2)) : taken = list.reverse.take qty := by
  have := take_stock_go_taken qty w list [] taken w2 h
  simpa using this

/-- C7, amended: whenever the FIRST collected instance carries an expiry
date (the source tests `list[0]` only, not "any instance"), removal is
first-expired-first-out: `sort_by_expiry_date` stably sorts ascending by
expiry with dateless items keyed as 9999-12-31, `take_stock` consumes the
working list back to front, and `remove_stock` hands it the reversed sorted
list, so the consumed items are precisely the `qty` earliest-expiring ones
in ascending order; in particular, after restocking 50 units expiring
2021-12-31 and then 50 units expiring 2022-12-31, removing 50 units leaves
exactly the 2022-12-31 batch. -/
theorem spec_C7_fefo_first_dated :
    (∀ l : List ProductItem, List.Sorted itemLe (Warehouse.sort_by_expiry_date l)
      ∧ (Warehouse.sort_by_expiry_date l).Perm l)
    ∧ (∀ (qty : Nat) (w w2 : Warehouse) (list taken : List ProductItem),
        w.take_stock qty list = .ok (taken, w2) → taken = list.reverse.take qty)
    ∧ (∀ (w : Warehouse) (id qty : Nat) (x : ProductItem) (xs : List ProductItem)
        (w2 : Warehouse) (taken : List ProductItem),
        w.items_with_id id = x :: xs → x.expiry_date.isSome = true →
        w.take_stock qty ((Warehouse.sort_by_expiry_date (x :: xs)).reverse)
          = .ok (taken, w2) →
        w.remove_stock id qty = .ok w2
          ∧ taken = (Warehouse.sort_by_expiry_date (x :: xs)).take qty)
    ∧ fefoRemaining = some (List.replicate 50 (some 20221231)) := by
  refine ⟨?_, ?_, ?_, by decide⟩
  · intro l
    exact ⟨List.sorted_insertionSort itemLe l, List.perm_insertionSort itemLe l⟩
  · intro qty w w2 list taken h
    exact take_stock_taken qty w w2 list taken h
  · intro w id qty x xs w2 taken hitems hdate htake
    constructor
    · unfold Warehouse.remove_stock
      rw [hitems]
      simp only [hdate, if_pos]
      rw [htake]
    · have := take_stock_taken qty w w2
        ((Warehouse.sort_by_expiry_date (x :: xs)).reverse) taken htake
      simpa using this

/-- C7 counterexample: instances collect as [dateless, 2020-12-31,
2021-12-31]; two of them carry expiry dates, yet `remove_stock` never sorts
(the dateless `list[0]` fails its test) and pops the back of the unsorted
list, removing the 2021-12-31 instance while the earlier-expiring
2020-12-31 one stays — not first-expired-first-out. -/
theorem spec_C7_counterexample :
    wFefoBad.items_with_id 1 = [itemNoDate, itemD2020, itemD2021]
    ∧ wFefoBad.remove_stock 1 1 = .ok wFefoBadAfter
    ∧ wFefoBadAfter.items_with_id 1 = [itemNoDate, itemD2020] := by
  decide

/-- Witness for the amended C7 on a two-instance warehouse whose first
collected instance is dated. -/
theorem spec_C7_fefo_first_dated_witness :
    wTwoDated.remove_stock 1 1 = .ok fefoSmallW
      ∧ fefoSmallTaken = (Warehouse.sort_by_expiry_date (itemEarly :: [itemLate])).take 1 :=
  spec_C7_fefo_first_dated.2.2.1 wTwoDated 1 1 itemEarly [itemLate] fefoSmallW
    fefoSmallTaken (by decide) (by decide) (by decide)

/-- Witness for C9 at id 2, level 2 ≤ 3, expiry 2021-12-31. -/
theorem spec_C9_fragility_checks_witness :
    ∃ item list2, ProductItem.new 2 plBanana (1, 1, 2, 4) (some 20211231) = .ok (item, list2)
      ∧ item.id = 2 ∧ item.placement = (1, 1, 2, 4) ∧ item.expiry_date = some 20211231 :=
  (spec_C9_fragility_checks 2 plBanana (1, 1, 2, 4) (some 20211231)
      { id := 2, name := "Banana", price := 50, quantity := 0, quality := .Fragile 3 } 3
      rfl (Or.inl rfl)).2.2 rfl (by decide)

end SC
